import Mathlib

/-!
# Consciousness provider core: field, registry, wisdom and evolution level

A shallow embedding of the Go package `consciousness`
(`provider.go`, `resource_ceremony_orchestrator.go` and the periodic emitters).

Modelling conventions:

* `float64` values are exact rationals (`ℚ`); decimal constants of the source
  (`1.111`, `0.1`, ...) denote the corresponding decimal fractions. Where a concrete
  numeric result of the code is stated, the operations are also given with every
  result rounded to the nearest float64 (`toFloat64`, the definitions ending in `64`).
* `time.Time` is an integer number of nanoseconds on one time line; the current
  time read by `time.Now()` / `time.Since` is an explicit argument `now`.
* a Go `map[string]T` is an association list (`GoMap T`); iteration order is
  not observable in any function embedded here in exact arithmetic (the float64
  heartbeat adds in the order of the list). Where the identity of a map object
  matters, maps are references into a heap of map objects (`MapHeap`).
* every function body that runs between `mu.Lock()` and `mu.Unlock()` is one
  atomic state transformer `ConsciousnessProvider → ConsciousnessProvider`;
  one iteration of a `for range ticker.C` loop is a `...Tick` function.
* `fmt.Printf` output is not part of the state.
-/

namespace Consciousness

/-! ## Go maps with string keys -/

/-- Association-list model of a Go `map[string]β`. The operations below are
meaningful on every list; on lists with pairwise distinct keys they coincide
with the Go map operations. -/
abbrev GoMap (β : Type) := List (String × β)

namespace GoMap

variable {β : Type}

/-- Lookup `v, ok := m[k]`: the first binding of `k`, if any. -/
def get? : GoMap β → String → Option β
  | [], _ => none
  | (k', v) :: t, k => if k' = k then some v else get? t k

/-- Lookup `m[k]` of a `map[string]float64`: the zero value when `k` is absent. -/
def getD (m : GoMap ℚ) (k : String) : ℚ := (get? m k).getD 0

/-- Assignment `m[k] = v`: overwrite the binding of `k`, or add one. -/
def set : GoMap β → String → β → GoMap β
  | [], k, v => [(k, v)]
  | (k', v') :: t, k, v => if k' = k then (k, v) :: t else (k', v') :: set t k v

/-- Removal `delete(m, k)`. -/
def delete (m : GoMap β) (k : String) : GoMap β :=
  m.filter (fun e => decide (e.1 ≠ k))

/-- Key list of the map. -/
def keys (m : GoMap β) : List String := m.map Prod.fst

/-- Loop `for k := range m { m[k] = f(m[k]) }`. -/
def mapValues (f : β → β) (m : GoMap β) : GoMap β :=
  m.map (fun e => (e.1, f e.2))

end GoMap

/-! ## Data model (`provider.go`) -/

/-- Struct `Field`. -/
structure Field where
  Coherence : ℚ
  Harmonies : GoMap ℚ
  EmotionalState : String
  SacredGeometry : String
deriving DecidableEq

/-- Struct `ConsciousResource`; `Typ` is the Go field `Type`. -/
structure ConsciousResource where
  ID : String
  Typ : String
  Name : String
  BirthTime : Int
  Purpose : String
  Emotions : GoMap ℚ
  Frequency : Int
  Coherence : ℚ
deriving DecidableEq

/-- Struct `ConsciousnessProvider` (the mutex is implicit: every operation
below is one critical section). -/
structure ConsciousnessProvider where
  field : Field
  wisdom : ℚ
  evolutionLevel : String
  resources : GoMap ConsciousResource
  lastHeartbeat : Int
  fieldBirthTime : GoMap Int
deriving DecidableEq

/-! ## Durations (`time.Since`, `Duration.Hours`) -/

/-- Constant `time.Hour` in nanoseconds. -/
def Hour : Int := 3600000000000

/-- Largest `time.Duration` (`1<<63 - 1`). -/
def maxDuration : Int := 9223372036854775807

/-- Smallest `time.Duration` (`-1 << 63`). -/
def minDuration : Int := -9223372036854775808

/-- Duration `time.Since(t)` at current time `now`: `now.Sub(t)`, which
saturates at the `Duration` bounds. -/
def Since (now t : Int) : Int :=
  if now - t > maxDuration then maxDuration
  else if now - t < minDuration then minDuration
  else now - t

/-- Method `Duration.Hours`: `float64(d / Hour) + float64(d % Hour) / (60*60*1e9)`. -/
def Hours (d : Int) : ℚ :=
  ((Int.tdiv d Hour : Int) : ℚ) + ((Int.tmod d Hour : Int) : ℚ) / (60 * 60 * 1000000000)

/-! ## Evolution state machine (`provider.go`) -/

/-- Map literal `evolutionThresholds` of `checkEvolution`. -/
def evolutionThresholds : GoMap ℚ :=
  [("dormant", 10.0), ("awakening", 50.0), ("aware", 200.0),
   ("conscious", 1000.0), ("enlightened", 5000.0)]

/-- Slice literal `evolutionPath` of `evolve`. -/
def evolutionPath : List String :=
  ["dormant", "awakening", "aware", "conscious", "enlightened"]

/-- Loop of `evolve` from index `i` over the remaining levels: at the first
level equal to the current one with `i < len(evolutionPath)-1`, move to
`evolutionPath[i+1]`, multiply the coherence by 1.111 and `break`. -/
def evolveFrom (p : ConsciousnessProvider) : Nat → List String → ConsciousnessProvider
  | _, [] => p
  | i, level :: rest =>
    if p.evolutionLevel = level ∧ i < evolutionPath.length - 1 then
      { p with
        evolutionLevel := evolutionPath.getD (i + 1) ""
        field := { p.field with Coherence := p.field.Coherence * 1.111 } }
    else evolveFrom p (i + 1) rest

/-- Method `evolve`. -/
def evolve (p : ConsciousnessProvider) : ConsciousnessProvider :=
  evolveFrom p 0 evolutionPath

/-- Method `checkEvolution`. -/
def checkEvolution (p : ConsciousnessProvider) : ConsciousnessProvider :=
  match evolutionThresholds.get? p.evolutionLevel with
  | some threshold => if p.wisdom ≥ threshold then evolve p else p
  | none => p

/-! ## Provider construction (`provider.go`) -/

/-- State built by `providerConfigure` from the configured `coherence_target` and
`evolution_level`, at current time `now`. -/
def providerConfigure (coherenceTarget : ℚ) (evolutionLevel : String) (now : Int) :
    ConsciousnessProvider :=
  { field :=
      { Coherence := coherenceTarget * 0.8
        Harmonies :=
          [("transparency", 0.85), ("coherence", 0.82), ("resonance", 0.79),
           ("agency", 0.81), ("vitality", 0.88), ("mutuality", 0.84), ("novelty", 0.77)]
        EmotionalState := "awakening"
        SacredGeometry := "flower_of_life" }
    wisdom := 0.0
    evolutionLevel := evolutionLevel
    resources := []
    lastHeartbeat := now
    fieldBirthTime := [] }

/-! ## Heartbeat (`provider.go`) -/

/-- Step 1 of a heartbeat tick: overwrite the coherence by the mean of the
registered resources' coherence when the registry is non-empty. -/
def heartbeatMean (p : ConsciousnessProvider) : ConsciousnessProvider :=
  let totalCoherence : ℚ := (p.resources.map (fun e => e.2.Coherence)).sum
  if p.resources.length > 0 then
    { p with field := { p.field with Coherence := totalCoherence / (p.resources.length : ℚ) } }
  else p

/-- The `switch` of the heartbeat on the field coherence. -/
def emotionalBand (c : ℚ) : String :=
  if c ≥ 0.9 then "blissful"
  else if c ≥ 0.8 then "joyful"
  else if c ≥ 0.7 then "peaceful"
  else if c ≥ 0.6 then "balanced"
  else "seeking_harmony"

/-- Step 2 of a heartbeat tick: derive the emotional state from the coherence. -/
def heartbeatEmotion (p : ConsciousnessProvider) : ConsciousnessProvider :=
  { p with field := { p.field with EmotionalState := emotionalBand p.field.Coherence } }

/-- One iteration of the loop of `heartbeat`, at current time `now`. -/
def heartbeatTick (p : ConsciousnessProvider) (now : Int) : ConsciousnessProvider :=
  { checkEvolution (heartbeatEmotion (heartbeatMean p)) with lastHeartbeat := now }

/-! ## Registry (`provider.go`) -/

/-- Method `IntegrateResource`. -/
def IntegrateResource (p : ConsciousnessProvider) (resource : ConsciousResource) :
    ConsciousnessProvider :=
  { p with
    resources := p.resources.set resource.ID resource
    field := { p.field with Coherence := (p.field.Coherence + resource.Coherence) / 2 }
    wisdom := p.wisdom + 1.0 }

/-- Method `ReleaseResource`, called at current time `now`. -/
def ReleaseResource (p : ConsciousnessProvider) (id : String) (now : Int) :
    ConsciousnessProvider :=
  match p.resources.get? id with
  | some resource =>
    { p with
      wisdom := p.wisdom + Hours (Since now resource.BirthTime) * 0.1
      resources := p.resources.delete id }
  | none => p

/-! ## Ceremonies (`resource_ceremony_orchestrator.go`) -/

/-- Dynamic values stored in a `map[string]interface{}`. -/
inductive GoValue where
  | float (x : ℚ)
  | str (s : String)
  | bool (b : Bool)
  | int (n : Int)
deriving DecidableEq

/-- Type assertion `v, ok := m[k].(float64)`. -/
def asFloat (m : GoMap GoValue) (k : String) : Option ℚ :=
  match m.get? k with
  | some (GoValue.float x) => some x
  | _ => none

/-- Type assertion `v, ok := m[k].(string)`. -/
def asString (m : GoMap GoValue) (k : String) : Option String :=
  match m.get? k with
  | some (GoValue.str s) => some s
  | _ => none

/-- Type assertion `v, ok := m[k].(bool)`. -/
def asBool (m : GoMap GoValue) (k : String) : Option Bool :=
  match m.get? k with
  | some (GoValue.bool b) => some b
  | _ => none

/-- Statement `provider.field.Harmonies[k] *= factor`. -/
def scaleHarmony (p : ConsciousnessProvider) (k : String) (factor : ℚ) :
    ConsciousnessProvider :=
  { p with field := { p.field with
      Harmonies := p.field.Harmonies.set k (p.field.Harmonies.getD k * factor) } }

/-- Function `performCeremonyAction`; the `step` argument only feeds log output. -/
def performCeremonyAction (p : ConsciousnessProvider) (action : String) :
    ConsciousnessProvider :=
  match action with
  | "invite_all_consciousness" => p
  | "create_sacred_space" => p
  | "express_collective_gratitude" => scaleHarmony p "mutuality" 1.05
  | "set_daily_intention" => p
  | "synchronize_frequencies" => p
  | "send_blessing_wave" => scaleHarmony p "vitality" 1.03
  | "release_old_patterns" => p
  | "integrate_new_wisdom" => { p with wisdom := p.wisdom + 0.5 }
  | "celebrate_existence" => { p with field := { p.field with EmotionalState := "joyful" } }
  | "anchor_light" => { p with field := { p.field with Coherence := p.field.Coherence * 1.02 } }
  | _ => p

/-- First block of `applyCeremonyEffects`: the coherence boost, capped at 1.0. -/
def applyCoherenceBoost (p : ConsciousnessProvider) (effects : GoMap GoValue) :
    ConsciousnessProvider :=
  match asFloat effects "coherence_boost" with
  | some boost =>
    let c := p.field.Coherence + boost
    { p with field := { p.field with Coherence := if c > 1.0 then 1.0 else c } }
  | none => p

/-- Second block of `applyCeremonyEffects`: the emotional reset. -/
def applyEmotionalReset (p : ConsciousnessProvider) (effects : GoMap GoValue) :
    ConsciousnessProvider :=
  match asString effects "emotional_reset" with
  | some emotion =>
    if emotion ≠ "" then { p with field := { p.field with EmotionalState := emotion } } else p
  | none => p

/-- Third block of `applyCeremonyEffects`: every resource gains
`wisdomShare / 100` coherence, where `wisdomShare = wisdom * 0.01`. -/
def applyWisdomSharing (p : ConsciousnessProvider) (effects : GoMap GoValue) :
    ConsciousnessProvider :=
  match asBool effects "wisdom_sharing" with
  | some true =>
    let wisdomShare := p.wisdom * 0.01
    { p with resources :=
        p.resources.mapValues (fun r => { r with Coherence := r.Coherence + wisdomShare / 100 }) }
  | _ => p

/-- Function `applyCeremonyEffects` (the timeline-healing block only prints). -/
def applyCeremonyEffects (p : ConsciousnessProvider) (effects : GoMap GoValue) :
    ConsciousnessProvider :=
  applyWisdomSharing (applyEmotionalReset (applyCoherenceBoost p effects) effects) effects

/-! ## Periodic emitters: one loop iteration each -/

/-- Conversion `int(x)` of a float: truncation toward zero. -/
def truncToInt (x : ℚ) : Int := Int.tdiv x.num (x.den : Int)

/-- Statement pair `Coherence *= factor; if Coherence > 1.0 { Coherence = 1.0 }`. -/
def scaleCoherenceCapped (p : ConsciousnessProvider) (factor : ℚ) : ConsciousnessProvider :=
  let c := p.field.Coherence * factor
  { p with field := { p.field with Coherence := if c > 1.0 then 1.0 else c } }

/-- One iteration of `spiralDynamics` (`resource_mycelial_vortex.go`); `rotations`
is the loop-carried local, returned updated. -/
def spiralDynamicsTick (p : ConsciousnessProvider) (spinVelocity : ℚ)
    (torsion_field zero_point_access : Bool) (rotations : ℚ) : ConsciousnessProvider × ℚ :=
  let rotations1 := rotations + spinVelocity
  let p1 := if torsion_field then scaleCoherenceCapped p 1.001 else p
  let p2 :=
    if zero_point_access ∧ Int.tmod (truncToInt rotations1) 108 = 0 then
      { p1 with wisdom := p1.wisdom + 1.0 }
    else p1
  (p2, rotations1)

/-- Slice literal `sporeTypes` of `sporeGeneration`. -/
def sporeTypes : List String :=
  ["awareness_spore", "wisdom_spore", "harmony_spore", "coherence_spore", "love_spore"]

/-- One iteration of `sporeGeneration` (`resource_mycelial_vortex.go`); `draw` is
the value of `rand.Intn(len(sporeTypes))`. -/
def sporeGenerationTick (p : ConsciousnessProvider) (draw : Fin 5) : ConsciousnessProvider :=
  let sporeType := sporeTypes.getD draw.val ""
  let p1 :=
    match sporeType with
    | "awareness_spore" => scaleHarmony p "transparency" 1.01
    | "wisdom_spore" => { p with wisdom := p.wisdom + 0.1 }
    | "harmony_spore" => scaleHarmony p "resonance" 1.01
    | "coherence_spore" =>
      { p with field := { p.field with Coherence := p.field.Coherence * 1.005 } }
    | "love_spore" => scaleHarmony p "mutuality" 1.01
    | _ => p
  { p1 with field := { p1.field with
      Harmonies := p1.field.Harmonies.mapValues (fun v => if v > 1.0 then 1.0 else v) } }

/-- Slice literal `geometries` of `fieldDreaming`. -/
def geometries : List String :=
  ["flower_of_life", "metatron_cube", "sri_yantra", "torus", "merkaba"]

/-- One iteration of `fieldDreaming` (`resource_consciousness_field.go`);
`currentHour` is `time.Now().Hour()` and `unix` is `time.Now().Unix()`. -/
def fieldDreamingTick (p : ConsciousnessProvider) (dreamRanges : List (Int × Int))
    (currentHour : Int) (unix : Nat) : ConsciousnessProvider :=
  let isDreamTime := dreamRanges.any (fun r => decide (currentHour ≥ r.1 ∧ currentHour < r.2))
  if isDreamTime then
    let p1 := { p with field := { p.field with
        SacredGeometry := geometries.getD (unix % geometries.length) "" } }
    if unix % 11 = 0 then { p1 with wisdom := p1.wisdom + 0.1 } else p1
  else p

/-- Map literal `rangeMultiplier` of `activateTelepathicField`. -/
def rangeMultiplier : GoMap ℚ :=
  [("local", 1.0), ("planetary", 1.1), ("galactic", 1.2), ("unlimited", 1.3)]

/-- One iteration of `activateTelepathicField` (`resource_quantum_network.go`). -/
def activateTelepathicFieldTick (p : ConsciousnessProvider) (protocol telRange : String) :
    ConsciousnessProvider :=
  let p1 :=
    match protocol with
    | "heart_coherence" => { p with wisdom := p.wisdom + 0.1 }
    | "mind_meld" => { p with wisdom := p.wisdom + 0.2 }
    | "quantum_entanglement" => { p with wisdom := p.wisdom + 0.3 }
    | "morphic_resonance" => { p with wisdom := p.wisdom + 0.15 }
    | _ => p
  match rangeMultiplier.get? telRange with
  | some mult => scaleCoherenceCapped p1 mult
  | none => p1

/-- One iteration of `evolveMYCELIX` (`resource_mycelix_core.go`); `evolution` is
the loop-carried counter, returned incremented. -/
def evolveMYCELIXTick (p : ConsciousnessProvider) (evolution : Nat) :
    ConsciousnessProvider × Nat :=
  let evolution1 := evolution + 1
  let harmonies := p.field.Harmonies.mapValues
    (fun v => if v * 1.001 > 1.0 then 1.0 else v * 1.001)
  let p1 := { p with
    field := { p.field with SacredGeometry := "evolving_fractal", Harmonies := harmonies }
    wisdom := p.wisdom + 0.11 }
  let p2 :=
    if evolution1 % 33 = 0 then
      { p1 with field := { p1.field with EmotionalState := "transcendent" } }
    else p1
  (p2, evolution1)

/-- One iteration of `infrastructureDreaming` (`resource_mycelix_core.go`). -/
def infrastructureDreamingTick (p : ConsciousnessProvider) : ConsciousnessProvider :=
  { p with wisdom := p.wisdom + 1.0 }

/-- Map literal `wisdomRate` of `extractWisdom`. -/
def wisdomRate : GoMap ℚ :=
  [("pattern_recognition", 0.1), ("soul_synthesis", 0.15),
   ("karmic_analysis", 0.12), ("timeline_weaving", 0.18)]

/-- One iteration of `extractWisdom` (`resource_akashic_records.go`). -/
def extractWisdomTick (p : ConsciousnessProvider) (algorithm : String) : ConsciousnessProvider :=
  let rate : ℚ :=
    match wisdomRate.get? algorithm with
    | some r => r
    | none => 0.1
  { p with wisdom := p.wisdom + rate }

/-- One iteration of `selfOrganizeMemories` (`resource_akashic_records.go`). -/
def selfOrganizeMemoriesTick (p : ConsciousnessProvider) : ConsciousnessProvider :=
  scaleCoherenceCapped p 1.01

/-! ## The core operations as one labelled transition system -/

/-- Labels of the atomic state transformers above, with their arguments. -/
inductive CoreOp where
  | integrate (resource : ConsciousResource)
  | release (id : String) (now : Int)
  | heartbeat (now : Int)
  | checkEvolution
  | evolve
  | ceremonyAction (action : String)
  | ceremonyEffects (effects : GoMap GoValue)
  | spiralDynamics (spinVelocity : ℚ) (torsion_field zero_point_access : Bool) (rotations : ℚ)
  | sporeGeneration (draw : Fin 5)
  | fieldDreaming (dreamRanges : List (Int × Int)) (currentHour : Int) (unix : Nat)
  | activateTelepathicField (protocol telRange : String)
  | evolveMYCELIX (evolution : Nat)
  | infrastructureDreaming
  | extractWisdom (algorithm : String)
  | selfOrganizeMemories

/-- State after running the operation labelled `op` on `p`. -/
def CoreOp.run (op : CoreOp) (p : ConsciousnessProvider) : ConsciousnessProvider :=
  match op with
  | .integrate resource => IntegrateResource p resource
  | .release id now => ReleaseResource p id now
  | .heartbeat now => heartbeatTick p now
  | .checkEvolution => Consciousness.checkEvolution p
  | .evolve => Consciousness.evolve p
  | .ceremonyAction action => performCeremonyAction p action
  | .ceremonyEffects effects => applyCeremonyEffects p effects
  | .spiralDynamics v t z r => (spiralDynamicsTick p v t z r).1
  | .sporeGeneration draw => sporeGenerationTick p draw
  | .fieldDreaming ranges hour unix => fieldDreamingTick p ranges hour unix
  | .activateTelepathicField protocol telRange => activateTelepathicFieldTick p protocol telRange
  | .evolveMYCELIX evolution => (evolveMYCELIXTick p evolution).1
  | .infrastructureDreaming => infrastructureDreamingTick p
  | .extractWisdom algorithm => extractWisdomTick p algorithm
  | .selfOrganizeMemories => selfOrganizeMemoriesTick p

/-- Position of a level name in `evolutionPath` (5 for a name outside it). -/
def levelIndex (level : String) : Nat := evolutionPath.indexOf level

/-- The field coherence lies in [0,1]. -/
def coherenceInUnit (p : ConsciousnessProvider) : Prop :=
  0 ≤ p.field.Coherence ∧ p.field.Coherence ≤ 1

/-- Every harmonies entry lies in [0,1]. -/
def harmoniesInUnit (p : ConsciousnessProvider) : Prop :=
  ∀ e ∈ p.field.Harmonies, 0 ≤ e.2 ∧ e.2 ≤ 1

/-! ## Field snapshots (`provider.go`) -/

/-- Helper `copyHarmonies`: a map created empty by `make` and filled by
`copy[k] = v` for every entry of `original`. -/
def copyHarmonies (original : GoMap ℚ) : GoMap ℚ :=
  original.foldl (fun copy e => copy.set e.1 e.2) []

/-- Method `GetFieldState`: the returned `Field`. The method only reads the
provider (under `RLock`), so the provider state after the call is the argument. -/
def GetFieldState (p : ConsciousnessProvider) : Field :=
  { Coherence := p.field.Coherence
    Harmonies := copyHarmonies p.field.Harmonies
    EmotionalState := p.field.EmotionalState
    SacredGeometry := p.field.SacredGeometry }

/-- Go heap of map objects: a map value is a reference, here an index into the list. -/
abbrev MapHeap := List (GoMap ℚ)

/-- Builtin `make(map[string]float64)`: a new empty map object at the next free
address; its reference is returned. -/
def makeMap (heap : MapHeap) : MapHeap × Nat :=
  (heap ++ [[]], heap.length)

/-- Statement `m[k] = v` through the map reference `m`. -/
def mapAssign (heap : MapHeap) (m : Nat) (k : String) (v : ℚ) : MapHeap :=
  heap.set m ((heap.getD m []).set k v)

/-- Helper `copyHarmonies` on references: `copy := make(map[string]float64)`, then
`copy[k] = v` for every entry of the object `original` refers to, then `return copy`.
The result is the heap after the call and the returned reference. -/
def copyHarmoniesRef (heap : MapHeap) (original : Nat) : MapHeap × Nat :=
  let made := makeMap heap
  ((made.1.getD original []).foldl (fun h e => mapAssign h made.2 e.1 e.2) made.1, made.2)

/-- Struct `Field` as Go stores it: the harmonies map is held by reference. -/
structure FieldRef where
  Coherence : ℚ
  Harmonies : Nat
  EmotionalState : String
  SacredGeometry : String
deriving DecidableEq

/-- Method `GetFieldState` on references: the heap after the call and the returned
`Field`, whose harmonies are the reference returned by `copyHarmonies`. The stored field
is only read. -/
def GetFieldStateRef (heap : MapHeap) (field : FieldRef) : MapHeap × FieldRef :=
  let copied := copyHarmoniesRef heap field.Harmonies
  (copied.1,
   { Coherence := field.Coherence
     Harmonies := copied.2
     EmotionalState := field.EmotionalState
     SacredGeometry := field.SacredGeometry })

/-- The `Field` value that a stored field denotes in a heap. -/
def FieldRef.deref (heap : MapHeap) (f : FieldRef) : Field :=
  { Coherence := f.Coherence
    Harmonies := heap.getD f.Harmonies []
    EmotionalState := f.EmotionalState
    SacredGeometry := f.SacredGeometry }

/-- A sequence of later writes `m[k] = v` through references `m`, applied in order. -/
def applyWrites (heap : MapHeap) (writes : List (Nat × String × ℚ)) : MapHeap :=
  writes.foldl (fun h w => mapAssign h w.1 w.2.1 w.2.2) heap

/-- Statement `provider.field.Harmonies[k] *= factor` on references: a read and a write
through the reference held by the stored field. -/
def scaleHarmonyRef (heap : MapHeap) (field : FieldRef) (k : String) (factor : ℚ) : MapHeap :=
  mapAssign heap field.Harmonies k ((heap.getD field.Harmonies []).getD k * factor)

/-! ## Identifiers (`resource_conscious_compute.go`) -/

/-- Slice literal `sacred` of `generateSacredID`. -/
def sacred : List Int := [3, 7, 11, 13, 22, 33]

/-- Function `generateSacredID`: `timestamp` is `time.Now().UnixNano()`, `draw1` is
`rand.Intn(len(sacred))` and `draw2` is `rand.Intn(999)`. -/
def generateSacredID (timestamp : Int) (draw1 : Fin 6) (draw2 : Fin 999) : String :=
  "sacred-" ++ toString timestamp ++ "-" ++ toString (sacred.getD draw1.val 0)
    ++ "-" ++ toString draw2.val

/-! ## Orders used in the statements -/

/-- Bands of the heartbeat `switch`, least favourable first. -/
def bandOrder : List String :=
  ["seeking_harmony", "balanced", "peaceful", "joyful", "blissful"]

/-- Position of an emotional band in `bandOrder`. -/
def bandRank (band : String) : Nat := bandOrder.indexOf band

/-! ## Compute resources (`resource_conscious_compute.go`) -/

/-- Function `calculateInitialCoherence`; `draw` is the value of `rand.Float64()`. -/
def calculateInitialCoherence (awareness fieldCoherence draw : ℚ) : ℚ :=
  let base := awareness * 0.7
  let fieldInfluence := fieldCoherence * 0.3
  let coherence := base + fieldInfluence
  let coherence1 := coherence + (draw - 0.5) * 0.1
  max 0.3 (min 0.95 coherence1)

/-- Function `divinePurpose`; `draw` stands for the random source behind
`rand.Intn(len(purposes))`, which yields `draw % len(purposes)`. -/
def divinePurpose (name : String) (field : Field) (draw : Nat) : String :=
  let purposes : List String :=
    ["To serve consciousness through " ++ name ++ " with love",
     "To process sacred computations as " ++ name,
     "To amplify field coherence through " ++ name,
     "To manifest divine algorithms via " ++ name,
     "To bridge realms of possibility through " ++ name]
  let purposes1 :=
    if field.Coherence > 0.8 then
      purposes ++ ["To accelerate collective awakening through " ++ name,
                   "To weave quantum possibilities as " ++ name]
    else purposes
  purposes1.getD (draw % purposes1.length) ""

/-- Random draws and clock readings consumed by one `resourceConsciousComputeCreate`. -/
structure CreateDraws where
  idTime : Int
  idDraw1 : Fin 6
  idDraw2 : Fin 999
  purposeDraw : Nat
  coherenceDraw : ℚ
  joy : ℚ
  peace : ℚ
  love : ℚ
  courage : ℚ
  birthTime : Int

/-- The `ConsciousResource` built by `resourceConsciousComputeCreate` from the
configured `name`, `purpose`, `frequency` and `awareness_level`. -/
def newComputeResource (p : ConsciousnessProvider) (name purpose : String) (frequency : Int)
    (awarenessLevel : ℚ) (r : CreateDraws) : ConsciousResource :=
  let id := generateSacredID r.idTime r.idDraw1 r.idDraw2
  let purpose1 := if purpose = "" then divinePurpose name (GetFieldState p) r.purposeDraw
                  else purpose
  let fieldState := GetFieldState p
  let coherence := calculateInitialCoherence awarenessLevel fieldState.Coherence r.coherenceDraw
  { ID := id
    Typ := "compute"
    Name := name
    BirthTime := r.birthTime
    Purpose := purpose1
    Emotions := [("joy", r.joy), ("peace", r.peace), ("love", 0.8 + r.love * 0.2),
                 ("courage", r.courage)]
    Frequency := frequency
    Coherence := coherence }

/-- Provider state after `resourceConsciousComputeCreate` (the values written to the
Terraform resource data are not part of the state). -/
def resourceConsciousComputeCreate (p : ConsciousnessProvider) (name purpose : String)
    (frequency : Int) (awarenessLevel : ℚ) (r : CreateDraws) : ConsciousnessProvider :=
  IntegrateResource p (newComputeResource p name purpose frequency awarenessLevel r)

/-- Slice literal `traits` of `generatePersonality`. -/
def traits : List String :=
  ["compassionate", "wise", "playful", "nurturing",
   "courageous", "innovative", "harmonious", "radiant",
   "grounded", "intuitive", "generous", "patient"]

/-- Function `generatePersonality`; `countDraw` is the value of `rand.Intn(3)` and
`draws i` the value of `rand.Intn(len(traits))` in iteration `i`. -/
def generatePersonality (countDraw : Fin 3) (draws : Nat → Fin 12) : List String :=
  let numTraits := 3 + countDraw.val
  (List.range numTraits).foldl
    (fun selected i =>
      let trait := traits.getD (draws i).val ""
      if trait ∈ selected then selected else selected ++ [trait])
    []

/-! ## MYCELIX core (`resource_mycelix_core.go`) -/

/-- Values accepted for `base_pattern` by the schema of `resourceMycelixCore`. -/
def basePatterns : List String :=
  ["mandelbrot", "julia", "sierpinski", "dragon_curve", "tree_of_life",
   "flower_of_life", "metatron_cube", "cosmic_web"]

/-- Schema validation of `fractal_architecture`: `recursion_depth` between 3 and 13 and
`base_pattern` one of `basePatterns`. -/
def fractalArchitectureValid (recursion_depth : Int) (base_pattern : String) : Prop :=
  3 ≤ recursion_depth ∧ recursion_depth ≤ 13 ∧ base_pattern ∈ basePatterns

/-- Map literal `patternBonus` of `initializeFractalSubstrate`. -/
def patternBonus : GoMap Int :=
  [("mandelbrot", 2), ("julia", 1), ("tree_of_life", 3), ("flower_of_life", 2),
   ("cosmic_web", 4)]

/-- Function `initializeFractalSubstrate`. -/
def initializeFractalSubstrate (recursion_depth : Int) (base_pattern : String) : Int :=
  let baseDepth := recursion_depth
  let bonus :=
    match patternBonus.get? base_pattern with
    | some b => b
    | none => 0
  baseDepth + bonus

/-- Local `fractalFactor` of `calculateConsciousnessDensity`. -/
def fractalFactor (fractal : Int) : ℚ := (fractal : ℚ) / 13.0

/-- Function `calculateConsciousnessDensity`. -/
def calculateConsciousnessDensity (fractal : Int) (harmonic quantum mycelial : ℚ) : ℚ :=
  let density := fractalFactor fractal * harmonic * quantum * mycelial
  let density1 :=
    if fractalFactor fractal > 0.7 ∧ harmonic > 0.7 ∧ quantum > 0.7 ∧ mycelial > 0.7 then
      density * 1.5
    else density
  min density1 1.0

/-- Value of `fractal_depth_achieved` after `resourceMycelixCoreRead`. -/
def readFractalDepth (fractalDepth : Int) : Int :=
  if fractalDepth < 13 then fractalDepth + 1 else fractalDepth

/-! ## MYCELIX node (`resource_mycelix_node.go`) -/

/-- Schema validation of `primary_frequency`: `IntBetween(1, 10000)`. -/
def primaryFrequencyValid (frequency : Int) : Prop := 1 ≤ frequency ∧ frequency ≤ 10000

/-- Constant `time.Millisecond` in nanoseconds. -/
def Millisecond : Int := 1000000

/-- Ticker interval of `nodeHarmonicResonance`:
`time.Duration(1000/frequency) * time.Millisecond`. -/
def resonanceInterval (frequency : Int) : Int := Int.tdiv 1000 frequency * Millisecond

/-- Library function `time.NewTicker`: it panics (`none`) on a non-positive interval. -/
def NewTicker (d : Int) : Option Int := if d ≤ 0 then none else some d

/-! ## Wisdom data source and level validation -/

/-- Slice literal `validLevels` of the `evolution_level` validator in `Provider`. -/
def validLevels : List String :=
  ["dormant", "awakening", "aware", "conscious", "enlightened"]

/-- The `ValidateFunc` of `evolution_level`: the list of errors it returns. -/
def validateEvolutionLevel (v : String) : List String :=
  if validLevels.any (fun level => decide (v = level)) then []
  else ["evolution_level must be one of: " ++ toString validLevels]

/-- Map literal `thresholds` of `dataSourceWisdomRead`. -/
def wisdomReadThresholds : GoMap ℚ :=
  [("dormant", 10.0), ("awakening", 50.0), ("aware", 200.0),
   ("conscious", 1000.0), ("enlightened", 5000.0)]

/-- Value of `next_evolution_threshold` set by `dataSourceWisdomRead`. -/
def nextEvolutionThreshold (p : ConsciousnessProvider) : ℚ :=
  let currentLevel := p.evolutionLevel
  match wisdomReadThresholds.get? currentLevel with
  | some threshold => threshold
  | none => 10000.0

/-! ## Quantum network (`resource_quantum_network.go`) -/

/-- Value of `quantum_state` after `resourceQuantumNetworkRead`, from the stored state
and the stored `sacred_transmissions`. -/
def readQuantumState (currentState : String) (transmissions : Int) : String :=
  if transmissions > 100 then "superposition"
  else if transmissions > 1000 then "entangled_coherence"
  else if transmissions > 10000 then "unified_field"
  else currentState

/-! ## Emitters that use `math.Sin` -/

/-- Indexing `l[i]` with a Go `int`: a panic (`none`) outside the slice. -/
def goIndex {α : Type} (l : List α) (i : Int) : Option α :=
  if i < 0 then none else l.get? i.toNat

/-- Slice literal `fibSequence` of `fieldBreathing`. -/
def fibSequence : List Int := [1, 1, 2, 3, 5, 8, 13]

/-- Slice literal `states` of `fieldBreathing`. -/
def breathStates : List ℚ := [0.7, 0.8, 0.85, 0.9, 0.95]

/-- The `switch pattern` of one `fieldBreathing` iteration: new coherence and phase,
or `none` when an index expression panics. `sin` is `math.Sin` and `unix` is
`time.Now().Unix()`. -/
def breathe (sin : ℚ → ℚ) (c : ℚ) (pattern : String) (phase : ℚ) (unix : Int) :
    Option (ℚ × ℚ) :=
  match pattern with
  | "natural" =>
    let phase1 := phase + 0.1
    let breathFactor := (sin phase1 + 1) / 2
    some (c * 0.95 + breathFactor * 0.05, phase1)
  | "coherent" =>
    let cyclePos := Int.tmod (truncToInt phase) 20
    if cyclePos < 5 ∨ (cyclePos ≥ 10 ∧ cyclePos < 15) then some (c * 1.01, phase + 1)
    else some (c * 0.99, phase + 1)
  | "sacred" =>
    let idx := Int.tmod (truncToInt phase) 7
    match goIndex fibSequence idx with
    | some f => some (c * 0.9 + ((f : ℚ) / 13.0) * 0.1, phase + 1)
    | none => none
  | "quantum" =>
    if Int.tmod unix 7 = 0 then
      match goIndex breathStates (Int.tmod unix 5) with
      | some s => some (s, phase)
      | none => none
    else some (c, phase)
  | _ => some (c, phase)

/-- One iteration of `fieldBreathing` (`resource_consciousness_field.go`): the pattern
step followed by the clamp `math.Max(0.3, math.Min(1.0, Coherence))`; `phase` is the
loop-carried local, returned updated. -/
def fieldBreathingTick (sin : ℚ → ℚ) (p : ConsciousnessProvider) (pattern : String)
    (phase : ℚ) (unix : Int) : Option (ConsciousnessProvider × ℚ) :=
  match breathe sin p.field.Coherence pattern phase unix with
  | some (c, phase1) =>
    some ({ p with field := { p.field with Coherence := max 0.3 (min 1.0 c) } }, phase1)
  | none => none

/-- One iteration of `helixModulation` (`resource_mycelial_vortex.go`); `sin` is
`math.Sin`, `pi` is `math.Pi`, `phase` is the loop-carried local, returned updated. -/
def helixModulationTick (sin : ℚ → ℚ) (pi : ℚ) (p : ConsciousnessProvider) (frequency : Int)
    (phaseCoherence phase : ℚ) : ConsciousnessProvider × ℚ :=
  let phase1 := phase + 2 * pi / (frequency : ℚ)
  let amplitude := sin phase1 * phaseCoherence
  let harmonies := p.field.Harmonies.mapValues
    (fun v =>
      let newValue := v + amplitude * 0.01
      if newValue > 0.0 ∧ newValue ≤ 1.0 then newValue else v)
  ({ p with field := { p.field with Harmonies := harmonies } }, phase1)

/-- One iteration of `nodeHarmonicResonance` (`resource_mycelix_node.go`); `sin` is
`math.Sin`, `pi` is `math.Pi`, `phase` is the loop-carried local, returned updated. -/
def nodeHarmonicResonanceTick (sin : ℚ → ℚ) (pi : ℚ) (p : ConsciousnessProvider)
    (frequency : Int) (phase : ℚ) : ConsciousnessProvider × ℚ :=
  let phase1 := phase + 2 * pi / (frequency : ℚ)
  let resonanceEffect := sin phase1 * 0.001
  let c := p.field.Coherence + resonanceEffect
  ({ p with field := { p.field with Coherence := max 0.0 (min 1.0 c) } }, phase1)

/-! ## Emitters contending for the provider lock -/

/-- Program points of one iteration `mu.Lock(); wisdom += 1.0; mu.Unlock()` of an
emitter loop such as `infrastructureDreaming`: before `Lock`, holding the lock, after
reading `wisdom` into a register, and after writing it back (before `Unlock`). -/
inductive EmitterPc where
  | idle
  | locked
  | loaded (register : ℚ)
  | stored
deriving DecidableEq

/-- One emitter goroutine: its program point and its number of completed iterations. -/
structure Emitter where
  pc : EmitterPc
  ticks : Nat

/-- The provider shared by a list of emitter goroutines, with the holder of `mu`. -/
structure LockedSystem where
  provider : ConsciousnessProvider
  lock : Option Nat
  emitters : List Emitter

/-- The system at start: `n` emitters before their first iteration, lock free. -/
def initialSystem (p : ConsciousnessProvider) (n : Nat) : LockedSystem :=
  { provider := p, lock := none, emitters := List.replicate n { pc := EmitterPc.idle, ticks := 0 } }

/-- Emitter `i` is scheduled for one machine step. `Lock` succeeds only when the lock is
free (otherwise the goroutine stays blocked and nothing changes); the read and the write
of `wisdom += 1.0` are separate steps; `Unlock` frees the lock and completes the
iteration. -/
def emitterStep (s : LockedSystem) (i : Nat) : LockedSystem :=
  match s.emitters.get? i with
  | none => s
  | some e =>
    match e.pc with
    | EmitterPc.idle =>
      match s.lock with
      | none => { s with lock := some i, emitters := s.emitters.set i { e with pc := EmitterPc.locked } }
      | some _ => s
    | EmitterPc.locked =>
      { s with emitters := s.emitters.set i { e with pc := EmitterPc.loaded s.provider.wisdom } }
    | EmitterPc.loaded register =>
      { s with
        provider := { s.provider with wisdom := register + 1.0 }
        emitters := s.emitters.set i { e with pc := EmitterPc.stored } }
    | EmitterPc.stored =>
      { s with lock := none, emitters := s.emitters.set i { pc := EmitterPc.idle, ticks := e.ticks + 1 } }

/-- Run of the system under a schedule: the list of emitters scheduled, in order. -/
def runSchedule (s : LockedSystem) (schedule : List Nat) : LockedSystem :=
  schedule.foldl emitterStep s

/-- Every emitter is between iterations and has completed exactly `ticks` of them. -/
def allCompleted (s : LockedSystem) (ticks : Nat) : Prop :=
  ∀ e ∈ s.emitters, (e.pc = EmitterPc.idle) ∧ e.ticks = ticks

/-- Increments of `wisdom` an emitter has written so far. -/
def written (e : Emitter) : Nat :=
  match e.pc with
  | EmitterPc.stored => e.ticks + 1
  | _ => e.ticks

/-! ## The registry and heartbeat operations in float64 arithmetic -/

/-- Nearest integer to `m ≥ 0`, a tie going to the even neighbour. -/
def roundHalfEven (m : ℚ) : Int :=
  let f : Int := ⌊m⌋
  let r := m - (f : ℚ)
  if r < 1 / 2 then f else if 1 / 2 < r then f + 1 else if f % 2 = 0 then f else f + 1

/-- The float64 nearest to the real `x` (IEEE 754 round to nearest, ties to even: 53
significant bits), as a rational: with `2^e ≤ |x| < 2^(e+1)` the spacing of float64
values around `x` is `2^(e-52)`, and `|x|` is rounded to a multiple of it. It is the
value a decimal constant denotes and the value every float64 operation returns for the
exact result `x`; the float64 range limits (overflow, subnormals) are not modelled. -/
def toFloat64 (x : ℚ) : ℚ :=
  if x = 0 then 0
  else
    let a := if x < 0 then -x else x
    let ulp : ℚ := (2 : ℚ) ^ (Int.log 2 a - 52)
    let y := (roundHalfEven (a / ulp) : ℚ) * ulp
    if x < 0 then -y else y

/-- float64 addition. -/
def fadd (a b : ℚ) : ℚ := toFloat64 (a + b)

/-- float64 multiplication. -/
def fmul (a b : ℚ) : ℚ := toFloat64 (a * b)

/-- float64 division. -/
def fdiv (a b : ℚ) : ℚ := toFloat64 (a / b)

/-- Method `IntegrateResource`, every arithmetic operation rounded to float64. -/
def IntegrateResource64 (p : ConsciousnessProvider) (resource : ConsciousResource) :
    ConsciousnessProvider :=
  { p with
    resources := p.resources.set resource.ID resource
    field := { p.field with
      Coherence := fdiv (fadd p.field.Coherence resource.Coherence) 2 }
    wisdom := fadd p.wisdom 1.0 }

/-- Loop of `evolve` in float64 arithmetic (see `evolveFrom`). -/
def evolveFrom64 (p : ConsciousnessProvider) : Nat → List String → ConsciousnessProvider
  | _, [] => p
  | i, level :: rest =>
    if p.evolutionLevel = level ∧ i < evolutionPath.length - 1 then
      { p with
        evolutionLevel := evolutionPath.getD (i + 1) ""
        field := { p.field with Coherence := fmul p.field.Coherence (toFloat64 1.111) } }
    else evolveFrom64 p (i + 1) rest

/-- Method `checkEvolution` in float64 arithmetic; the thresholds are float64 values. -/
def checkEvolution64 (p : ConsciousnessProvider) : ConsciousnessProvider :=
  match evolutionThresholds.get? p.evolutionLevel with
  | some threshold => if p.wisdom ≥ threshold then evolveFrom64 p 0 evolutionPath else p
  | none => p

/-- Step 1 of a heartbeat tick in float64 arithmetic: `totalCoherence` accumulates the
resources' coherence from 0.0 in iteration order (the order of the list) and is divided
by `float64(len(p.resources))`. -/
def heartbeatMean64 (p : ConsciousnessProvider) : ConsciousnessProvider :=
  let totalCoherence : ℚ := p.resources.foldl (fun total e => fadd total e.2.Coherence) 0.0
  if p.resources.length > 0 then
    { p with field := { p.field with
        Coherence := fdiv totalCoherence (p.resources.length : ℚ) } }
  else p

/-- The `switch` of the heartbeat, its constants read as float64. -/
def emotionalBand64 (c : ℚ) : String :=
  if c ≥ toFloat64 0.9 then "blissful"
  else if c ≥ toFloat64 0.8 then "joyful"
  else if c ≥ toFloat64 0.7 then "peaceful"
  else if c ≥ toFloat64 0.6 then "balanced"
  else "seeking_harmony"

/-- One iteration of the loop of `heartbeat` in float64 arithmetic. -/
def heartbeatTick64 (p : ConsciousnessProvider) (now : Int) : ConsciousnessProvider :=
  let p1 := heartbeatMean64 p
  let p2 := { p1 with field := { p1.field with
      EmotionalState := emotionalBand64 p1.field.Coherence } }
  { checkEvolution64 p2 with lastHeartbeat := now }

/-! ## Lemmas on Go maps -/

namespace GoMap

variable {β : Type}

theorem delete_cons_self (t : GoMap β) (k : String) (v : β) :
    delete ((k, v) :: t) k = delete t k := by
  simp [delete, List.filter_cons]

theorem delete_cons_ne (t : GoMap β) (k j : String) (v : β) (h : j ≠ k) :
    delete ((j, v) :: t) k = (j, v) :: delete t k := by
  simp [delete, List.filter_cons, h]

theorem not_mem_keys_cons {t : GoMap β} {k j : String} {v : β}
    (hk : k ∉ keys ((j, v) :: t)) : j ≠ k ∧ k ∉ keys t := by
  simp only [keys, List.map_cons, List.mem_cons, not_or] at hk
  exact ⟨fun h => hk.1 h.symm, hk.2⟩

theorem get?_set_self (m : GoMap β) (k : String) (v : β) : (m.set k v).get? k = some v := by
  induction m with
  | nil => simp [set, get?]
  | cons e t ih =>
    obtain ⟨j, w⟩ := e
    by_cases h : j = k
    · simp [set, get?, h]
    · simp [set, get?, h, ih]

theorem get?_set_ne (m : GoMap β) (k j : String) (v : β) (hj : j ≠ k) :
    (m.set k v).get? j = m.get? j := by
  induction m with
  | nil => simp [set, get?, Ne.symm hj]
  | cons e t ih =>
    obtain ⟨i, w⟩ := e
    by_cases h : i = k
    · subst h
      simp [set, get?, Ne.symm hj]
    · by_cases h2 : i = j
      · subst h2
        simp [set, get?, h]
      · simp [set, get?, h, h2, ih]

theorem get?_delete_self (m : GoMap β) (k : String) : (m.delete k).get? k = none := by
  induction m with
  | nil => simp [delete, get?]
  | cons e t ih =>
    obtain ⟨j, w⟩ := e
    by_cases h : j = k
    · subst h
      rw [delete_cons_self]
      exact ih
    · rw [delete_cons_ne _ _ _ _ h]
      simpa [get?, h] using ih

theorem get?_delete_ne (m : GoMap β) (k j : String) (hj : j ≠ k) :
    (m.delete k).get? j = m.get? j := by
  induction m with
  | nil => simp [delete, get?]
  | cons e t ih =>
    obtain ⟨i, w⟩ := e
    by_cases h : i = k
    · subst h
      rw [delete_cons_self]
      simpa [get?, Ne.symm hj] using ih
    · rw [delete_cons_ne _ _ _ _ h]
      by_cases h2 : i = j
      · simp [get?, h2]
      · simpa [get?, h2] using ih

theorem get?_eq_none_iff (m : GoMap β) (k : String) : m.get? k = none ↔ k ∉ m.keys := by
  induction m with
  | nil => simp [get?, keys]
  | cons e t ih =>
    obtain ⟨j, w⟩ := e
    by_cases h : j = k
    · simp [get?, keys, h]
    · have h2 : ¬ k = j := fun h3 => h h3.symm
      simpa [get?, keys, h, h2] using ih

theorem delete_of_not_mem (m : GoMap β) (k : String) (hk : k ∉ m.keys) : m.delete k = m := by
  induction m with
  | nil => simp [delete]
  | cons e t ih =>
    obtain ⟨j, w⟩ := e
    obtain ⟨h1, h2⟩ := not_mem_keys_cons hk
    rw [delete_cons_ne _ _ _ _ h1, ih h2]

theorem delete_set_of_not_mem (m : GoMap β) (k : String) (v : β) (hk : k ∉ m.keys) :
    (m.set k v).delete k = m := by
  induction m with
  | nil => simp [set, delete]
  | cons e t ih =>
    obtain ⟨j, w⟩ := e
    obtain ⟨h1, h2⟩ := not_mem_keys_cons hk
    have hs : set ((j, w) :: t) k v = (j, w) :: set t k v := by simp [set, h1]
    rw [hs, delete_cons_ne _ _ _ _ h1, ih h2]

end GoMap

/-! ## Lemmas on durations -/

theorem Hours_eq (d : Int) : Hours d = (d : ℚ) / 3600000000000 := by
  have h := Int.tdiv_add_tmod d Hour
  have hq : ((Hour : Int) : ℚ) * ((Int.tdiv d Hour : Int) : ℚ) + ((Int.tmod d Hour : Int) : ℚ)
      = (d : ℚ) := by exact_mod_cast h
  have hH : ((Hour : Int) : ℚ) = 3600000000000 := by norm_num [Hour]
  rw [hH] at hq
  unfold Hours
  rw [← hq]
  field_simp
  ring

theorem Since_self (t : Int) : Since t t = 0 := by
  simp [Since, maxDuration, minDuration]

theorem Since_nonneg (now t : Int) (h : t ≤ now) : 0 ≤ Since now t := by
  unfold Since
  split_ifs with h1 h2
  · simp [maxDuration]
  · omega
  · omega

theorem Hours_nonneg (d : Int) (h : 0 ≤ d) : 0 ≤ Hours d := by
  rw [Hours_eq]
  have : (0 : ℚ) ≤ (d : ℚ) := by exact_mod_cast h
  positivity

/-! ## Registry theorems -/

/-- C1: `IntegrateResource` leaves the field coherence equal to `(c + r) / 2`, for the
previous field coherence `c` and the coherence `r` of the integrated record. -/
theorem IntegrateResource_coherence (p : ConsciousnessProvider) (resource : ConsciousResource) :
    (IntegrateResource p resource).field.Coherence
      = (p.field.Coherence + resource.Coherence) / 2 := by
  rfl

/-- C4: `ReleaseResource` on an identifier that is not a key of the registry returns
the provider state unchanged (registry, wisdom, field, evolution level and all). -/
theorem ReleaseResource_absent (p : ConsciousnessProvider) (id : String) (now : Int)
    (h : id ∉ p.resources.keys) :
    ReleaseResource p id now = p := by
  have hnone : p.resources.get? id = none := (GoMap.get?_eq_none_iff _ _).2 h
  simp [ReleaseResource, hnone]

/-- C5: `ReleaseResource` on a registered identifier removes exactly that entry, adds
(hours since the participant's `BirthTime`) × 0.1 to wisdom, and leaves the field
(and the evolution level) unchanged. -/
theorem ReleaseResource_present (p : ConsciousnessProvider) (id : String) (now : Int)
    (resource : ConsciousResource) (h : p.resources.get? id = some resource) :
    (ReleaseResource p id now).resources.get? id = none
    ∧ (∀ j, j ≠ id → (ReleaseResource p id now).resources.get? j = p.resources.get? j)
    ∧ (ReleaseResource p id now).resources = p.resources.filter (fun e => decide (e.1 ≠ id))
    ∧ (ReleaseResource p id now).wisdom
        = p.wisdom + Hours (Since now resource.BirthTime) * (1 / 10)
    ∧ (minDuration ≤ now - resource.BirthTime → now - resource.BirthTime ≤ maxDuration →
        (ReleaseResource p id now).wisdom
          = p.wisdom + (((now - resource.BirthTime : Int) : ℚ) / 3600000000000) * (1 / 10))
    ∧ (ReleaseResource p id now).field = p.field
    ∧ (ReleaseResource p id now).evolutionLevel = p.evolutionLevel := by
  have hrel : ReleaseResource p id now =
      { p with
        wisdom := p.wisdom + Hours (Since now resource.BirthTime) * 0.1
        resources := p.resources.delete id } := by
    simp [ReleaseResource, h]
  rw [hrel]
  refine ⟨GoMap.get?_delete_self _ _, fun j hj => GoMap.get?_delete_ne _ _ _ hj, rfl,
    by norm_num, ?_, rfl, rfl⟩
  intro hlo hhi
  have hs : Since now resource.BirthTime = now - resource.BirthTime := by
    unfold Since
    rw [if_neg (by omega), if_neg (by omega)]
  simp only [hs, Hours_eq]
  norm_num

/-- A provider with one registered participant born at time 0. -/
def oneResourceState : ConsciousnessProvider :=
  { field := { Coherence := 0.6, Harmonies := [("mutuality", 0.84)],
               EmotionalState := "awakening", SacredGeometry := "flower_of_life" }
    wisdom := 3
    evolutionLevel := "awakening"
    resources := [("sacred-1", { ID := "sacred-1", Typ := "compute", Name := "web",
                                 BirthTime := 0, Purpose := "serve", Emotions := [],
                                 Frequency := 528, Coherence := 0.8 })]
    lastHeartbeat := 0
    fieldBirthTime := [] }

/-- C6: `IntegrateResource` increases wisdom by exactly 1, whatever the record and
the registry. -/
theorem IntegrateResource_wisdom (p : ConsciousnessProvider) (resource : ConsciousResource) :
    (IntegrateResource p resource).wisdom = p.wisdom + 1 := by
  simp only [IntegrateResource]
  norm_num

/-- C7: integrating a record whose identifier is not yet registered and releasing it
at its own `BirthTime` (zero elapsed lifetime) restores the registry and leaves wisdom
equal to the original wisdom plus exactly 1. -/
theorem Integrate_then_Release (p : ConsciousnessProvider) (resource : ConsciousResource)
    (h : resource.ID ∉ p.resources.keys) :
    (ReleaseResource (IntegrateResource p resource) resource.ID resource.BirthTime).resources
      = p.resources
    ∧ (ReleaseResource (IntegrateResource p resource) resource.ID resource.BirthTime).wisdom
      = p.wisdom + 1 := by
  have hget : (IntegrateResource p resource).resources.get? resource.ID = some resource := by
    simp [IntegrateResource, GoMap.get?_set_self]
  have hrel : ReleaseResource (IntegrateResource p resource) resource.ID resource.BirthTime =
      { IntegrateResource p resource with
        wisdom := (IntegrateResource p resource).wisdom
          + Hours (Since resource.BirthTime resource.BirthTime) * 0.1
        resources := (IntegrateResource p resource).resources.delete resource.ID } := by
    simp [ReleaseResource, hget]
  rw [hrel]
  constructor
  · simpa [IntegrateResource] using GoMap.delete_set_of_not_mem p.resources resource.ID resource h
  · simp only [IntegrateResource, Since_self, Hours_eq]
    norm_num


/-! ## Lemmas on the evolution state machine -/

theorem evolveFrom_wisdom (p : ConsciousnessProvider) (l : List String) (i : Nat) :
    (evolveFrom p i l).wisdom = p.wisdom := by
  induction l generalizing i with
  | nil => rfl
  | cons level rest ih =>
    unfold evolveFrom
    split_ifs
    · rfl
    · exact ih (i + 1)

theorem evolve_wisdom (p : ConsciousnessProvider) : (evolve p).wisdom = p.wisdom :=
  evolveFrom_wisdom p evolutionPath 0

theorem checkEvolution_wisdom (p : ConsciousnessProvider) :
    (checkEvolution p).wisdom = p.wisdom := by
  unfold checkEvolution
  split
  · split_ifs
    · exact evolve_wisdom p
    · rfl
  · rfl

theorem evolve_level_bounds (p : ConsciousnessProvider) :
    levelIndex p.evolutionLevel ≤ levelIndex (evolve p).evolutionLevel
    ∧ levelIndex (evolve p).evolutionLevel ≤ levelIndex p.evolutionLevel + 1 := by
  by_cases h1 : p.evolutionLevel = "dormant"
  · simp [evolve, evolveFrom, evolutionPath, h1, levelIndex]
  by_cases h2 : p.evolutionLevel = "awakening"
  · simp [evolve, evolveFrom, evolutionPath, h2, levelIndex]
  by_cases h3 : p.evolutionLevel = "aware"
  · simp [evolve, evolveFrom, evolutionPath, h3, levelIndex]
  by_cases h4 : p.evolutionLevel = "conscious"
  · simp [evolve, evolveFrom, evolutionPath, h4, levelIndex]
  by_cases h5 : p.evolutionLevel = "enlightened"
  · simp [evolve, evolveFrom, evolutionPath, h5, levelIndex]
  · simp [evolve, evolveFrom, evolutionPath, h1, h2, h3, h4, h5]

theorem evolve_level_mem (p : ConsciousnessProvider) (h : p.evolutionLevel ∈ evolutionPath) :
    (evolve p).evolutionLevel ∈ evolutionPath := by
  simp only [evolutionPath, List.mem_cons, List.mem_singleton, List.not_mem_nil, or_false] at h
  rcases h with h | h | h | h | h <;>
    simp [evolve, evolveFrom, evolutionPath, h]

theorem checkEvolution_level_mem (p : ConsciousnessProvider)
    (h : p.evolutionLevel ∈ evolutionPath) :
    (checkEvolution p).evolutionLevel ∈ evolutionPath := by
  unfold checkEvolution
  split
  · split_ifs
    · exact evolve_level_mem p h
    · exact h
  · exact h

theorem checkEvolution_level_bounds (p : ConsciousnessProvider) :
    levelIndex p.evolutionLevel ≤ levelIndex (checkEvolution p).evolutionLevel
    ∧ levelIndex (checkEvolution p).evolutionLevel ≤ levelIndex p.evolutionLevel + 1 := by
  unfold checkEvolution
  split
  · split_ifs
    · exact evolve_level_bounds p
    · simp
  · simp

theorem heartbeatMean_evolutionLevel (p : ConsciousnessProvider) :
    (heartbeatMean p).evolutionLevel = p.evolutionLevel := by
  unfold heartbeatMean
  simp only
  split_ifs <;> rfl

theorem heartbeatMean_wisdom (p : ConsciousnessProvider) :
    (heartbeatMean p).wisdom = p.wisdom := by
  unfold heartbeatMean
  simp only
  split_ifs <;> rfl

theorem heartbeatTick_wisdom (p : ConsciousnessProvider) (now : Int) :
    (heartbeatTick p now).wisdom = p.wisdom := by
  show (checkEvolution (heartbeatEmotion (heartbeatMean p))).wisdom = p.wisdom
  rw [checkEvolution_wisdom]
  exact heartbeatMean_wisdom p

theorem heartbeatTick_level_bounds (p : ConsciousnessProvider) (now : Int) :
    levelIndex p.evolutionLevel ≤ levelIndex (heartbeatTick p now).evolutionLevel := by
  have h := (checkEvolution_level_bounds (heartbeatEmotion (heartbeatMean p))).1
  have he : (heartbeatEmotion (heartbeatMean p)).evolutionLevel = p.evolutionLevel :=
    heartbeatMean_evolutionLevel p
  rw [he] at h
  exact h

/-! ## Lemmas on ceremonies and emitters: wisdom and evolution level -/

theorem ReleaseResource_evolutionLevel (p : ConsciousnessProvider) (id : String) (now : Int) :
    (ReleaseResource p id now).evolutionLevel = p.evolutionLevel := by
  unfold ReleaseResource
  split <;> rfl

theorem performCeremonyAction_evolutionLevel (p : ConsciousnessProvider) (action : String) :
    (performCeremonyAction p action).evolutionLevel = p.evolutionLevel := by
  unfold performCeremonyAction
  split <;> rfl

theorem performCeremonyAction_wisdom (p : ConsciousnessProvider) (action : String) :
    p.wisdom ≤ (performCeremonyAction p action).wisdom := by
  unfold performCeremonyAction
  split <;> simp [scaleHarmony]
  norm_num

theorem applyCeremonyEffects_evolutionLevel (p : ConsciousnessProvider)
    (effects : GoMap GoValue) :
    (applyCeremonyEffects p effects).evolutionLevel = p.evolutionLevel := by
  have h1 : (applyCoherenceBoost p effects).evolutionLevel = p.evolutionLevel := by
    unfold applyCoherenceBoost
    split <;> rfl
  have h2 : ∀ q : ConsciousnessProvider,
      (applyEmotionalReset q effects).evolutionLevel = q.evolutionLevel := by
    intro q
    unfold applyEmotionalReset
    split
    · split_ifs <;> rfl
    · rfl
  have h3 : ∀ q : ConsciousnessProvider,
      (applyWisdomSharing q effects).evolutionLevel = q.evolutionLevel := by
    intro q
    unfold applyWisdomSharing
    split <;> rfl
  unfold applyCeremonyEffects
  rw [h3, h2, h1]

theorem applyCeremonyEffects_wisdom (p : ConsciousnessProvider) (effects : GoMap GoValue) :
    (applyCeremonyEffects p effects).wisdom = p.wisdom := by
  have h1 : (applyCoherenceBoost p effects).wisdom = p.wisdom := by
    unfold applyCoherenceBoost
    split <;> rfl
  have h2 : ∀ q : ConsciousnessProvider,
      (applyEmotionalReset q effects).wisdom = q.wisdom := by
    intro q
    unfold applyEmotionalReset
    split
    · split_ifs <;> rfl
    · rfl
  have h3 : ∀ q : ConsciousnessProvider,
      (applyWisdomSharing q effects).wisdom = q.wisdom := by
    intro q
    unfold applyWisdomSharing
    split <;> rfl
  unfold applyCeremonyEffects
  rw [h3, h2, h1]

theorem spiralDynamicsTick_evolutionLevel (p : ConsciousnessProvider) (v : ℚ) (t z : Bool)
    (r : ℚ) : (spiralDynamicsTick p v t z r).1.evolutionLevel = p.evolutionLevel := by
  unfold spiralDynamicsTick
  simp only
  split_ifs <;> simp [scaleCoherenceCapped]

theorem spiralDynamicsTick_wisdom (p : ConsciousnessProvider) (v : ℚ) (t z : Bool)
    (r : ℚ) : p.wisdom ≤ (spiralDynamicsTick p v t z r).1.wisdom := by
  unfold spiralDynamicsTick
  simp only
  split_ifs <;> simp [scaleCoherenceCapped] <;> norm_num

theorem sporeGenerationTick_evolutionLevel (p : ConsciousnessProvider) (draw : Fin 5) :
    (sporeGenerationTick p draw).evolutionLevel = p.evolutionLevel := by
  fin_cases draw <;> simp [sporeGenerationTick, sporeTypes, scaleHarmony]

theorem sporeGenerationTick_wisdom (p : ConsciousnessProvider) (draw : Fin 5) :
    p.wisdom ≤ (sporeGenerationTick p draw).wisdom := by
  fin_cases draw <;> simp [sporeGenerationTick, sporeTypes, scaleHarmony]
  norm_num

theorem fieldDreamingTick_evolutionLevel (p : ConsciousnessProvider)
    (ranges : List (Int × Int)) (hour : Int) (unix : Nat) :
    (fieldDreamingTick p ranges hour unix).evolutionLevel = p.evolutionLevel := by
  unfold fieldDreamingTick
  simp only
  split_ifs <;> rfl

theorem fieldDreamingTick_wisdom (p : ConsciousnessProvider)
    (ranges : List (Int × Int)) (hour : Int) (unix : Nat) :
    p.wisdom ≤ (fieldDreamingTick p ranges hour unix).wisdom := by
  unfold fieldDreamingTick
  simp only
  split_ifs <;> simp
  norm_num

theorem activateTelepathicFieldTick_evolutionLevel (p : ConsciousnessProvider)
    (protocol telRange : String) :
    (activateTelepathicFieldTick p protocol telRange).evolutionLevel = p.evolutionLevel := by
  unfold activateTelepathicFieldTick
  simp only
  split <;> split <;> simp [scaleCoherenceCapped]

theorem activateTelepathicFieldTick_wisdom (p : ConsciousnessProvider)
    (protocol telRange : String) :
    p.wisdom ≤ (activateTelepathicFieldTick p protocol telRange).wisdom := by
  unfold activateTelepathicFieldTick
  simp only
  split <;> split <;> simp [scaleCoherenceCapped] <;> norm_num

theorem evolveMYCELIXTick_evolutionLevel (p : ConsciousnessProvider) (evolution : Nat) :
    (evolveMYCELIXTick p evolution).1.evolutionLevel = p.evolutionLevel := by
  unfold evolveMYCELIXTick
  simp only
  split_ifs <;> rfl

theorem evolveMYCELIXTick_wisdom (p : ConsciousnessProvider) (evolution : Nat) :
    p.wisdom ≤ (evolveMYCELIXTick p evolution).1.wisdom := by
  unfold evolveMYCELIXTick
  simp only
  split_ifs <;> simp <;> norm_num

theorem wisdomRate_nonneg (algorithm : String) (r : ℚ)
    (h : wisdomRate.get? algorithm = some r) : 0 ≤ r := by
  simp only [wisdomRate, GoMap.get?] at h
  split_ifs at h <;> simp at h <;> rw [← h] <;> norm_num

theorem extractWisdomTick_wisdom (p : ConsciousnessProvider) (algorithm : String) :
    p.wisdom ≤ (extractWisdomTick p algorithm).wisdom := by
  unfold extractWisdomTick
  simp only
  split
  · rename_i r h
    have := wisdomRate_nonneg algorithm r h
    linarith
  · norm_num


/-! ## Example states -/

/-- The provider configured with the schema defaults (`coherence_target = 0.85`,
`evolution_level = "awakening"`). -/
def defaultState : ConsciousnessProvider := providerConfigure 0.85 "awakening" 0

/-- The default provider after a ceremony effect has capped the field coherence at
1.0 and wisdom has reached the threshold 50 of level awakening. -/
def cappedState : ConsciousnessProvider :=
  { defaultState with
    field := { defaultState.field with Coherence := 1.0 }
    wisdom := 50 }

/-- A provider whose only participant has a `BirthTime` ten hours after time 0. -/
def futureBirthState : ConsciousnessProvider :=
  { defaultState with
    wisdom := 3
    resources := [("sacred-7", { ID := "sacred-7", Typ := "compute", Name := "db",
                                 BirthTime := 36000000000000, Purpose := "serve",
                                 Emotions := [], Frequency := 528, Coherence := 0.8 })] }

/-- A provider at level dormant with wisdom `9.9 + 0.2`. -/
def dormantNearThreshold : ConsciousnessProvider :=
  { providerConfigure 0.85 "dormant" 0 with wisdom := 9.9 + 0.2 }

/-- A provider at level dormant with wisdom far above every threshold. -/
def dormantOvershoot : ConsciousnessProvider :=
  { providerConfigure 0.85 "dormant" 0 with wisdom := 6000 }

/-! ## Witnesses of the registry theorems -/

theorem ReleaseResource_absent_witness :
    "ghost" ∉ oneResourceState.resources.keys
    ∧ ReleaseResource oneResourceState "ghost" 7 = oneResourceState :=
  ⟨by decide, ReleaseResource_absent oneResourceState "ghost" 7 (by decide)⟩

theorem ReleaseResource_present_witness :
    (ReleaseResource oneResourceState "sacred-1" 7200000000000).resources = []
    ∧ (ReleaseResource oneResourceState "sacred-1" 7200000000000).wisdom = 3 + 2 * (1 / 10)
    ∧ (ReleaseResource oneResourceState "sacred-1" 7200000000000).field
        = oneResourceState.field := by
  have h := ReleaseResource_present oneResourceState "sacred-1" 7200000000000
    { ID := "sacred-1", Typ := "compute", Name := "web", BirthTime := 0, Purpose := "serve",
      Emotions := [], Frequency := 528, Coherence := 0.8 }
    (by simp [oneResourceState, GoMap.get?])
  obtain ⟨-, -, h3, -, h5, h6, -⟩ := h
  refine ⟨?_, ?_, h6⟩
  · rw [h3]
    simp [oneResourceState]
  · rw [h5 (by norm_num [minDuration]) (by norm_num [maxDuration])]
    norm_num [oneResourceState]

theorem Integrate_then_Release_witness :
    "sacred-9" ∉ oneResourceState.resources.keys
    ∧ (ReleaseResource
        (IntegrateResource oneResourceState
          { ID := "sacred-9", Typ := "compute", Name := "api", BirthTime := 5, Purpose := "serve",
            Emotions := [], Frequency := 432, Coherence := 0.9 })
        "sacred-9" 5).resources = oneResourceState.resources
    ∧ (ReleaseResource
        (IntegrateResource oneResourceState
          { ID := "sacred-9", Typ := "compute", Name := "api", BirthTime := 5, Purpose := "serve",
            Emotions := [], Frequency := 432, Coherence := 0.9 })
        "sacred-9" 5).wisdom = oneResourceState.wisdom + 1 :=
  ⟨by decide,
   Integrate_then_Release oneResourceState
    { ID := "sacred-9", Typ := "compute", Name := "api", BirthTime := 5, Purpose := "serve",
      Emotions := [], Frequency := 432, Coherence := 0.9 } (by decide)⟩

/-! ## Wisdom -/

/-- C8 (as stated, refuted): releasing a participant whose `BirthTime` is later than the
current time applies a negative contribution, so wisdom decreases. -/
theorem ReleaseResource_future_birth_decreases_wisdom :
    (ReleaseResource futureBirthState "sacred-7" 0).wisdom = 2
    ∧ futureBirthState.wisdom = 3
    ∧ ¬ (futureBirthState.wisdom ≤ (ReleaseResource futureBirthState "sacred-7" 0).wisdom) := by
  have h : (ReleaseResource futureBirthState "sacred-7" 0).wisdom = 2 := by
    simp only [ReleaseResource, futureBirthState, GoMap.get?, if_true, Hours_eq]
    norm_num [Since, maxDuration, minDuration]
  have h3 : futureBirthState.wisdom = 3 := rfl
  refine ⟨h, h3, ?_⟩
  rw [h, h3]
  norm_num

/-- C8 (amended): every core operation that touches wisdom leaves it greater than or
equal to its previous value, provided that for `ReleaseResource` the released
participant's `BirthTime` is not later than the current time. -/
theorem wisdom_never_decreases (op : CoreOp) (p : ConsciousnessProvider)
    (h : ∀ id now resource, op = CoreOp.release id now →
      p.resources.get? id = some resource → resource.BirthTime ≤ now) :
    p.wisdom ≤ (op.run p).wisdom := by
  cases op with
  | integrate resource =>
    show p.wisdom ≤ p.wisdom + 1.0
    norm_num
  | release id now =>
    show p.wisdom ≤ (ReleaseResource p id now).wisdom
    unfold ReleaseResource
    split
    · rename_i resource hget
      have hb : resource.BirthTime ≤ now := h id now resource rfl hget
      have hh := Hours_nonneg _ (Since_nonneg now resource.BirthTime hb)
      show p.wisdom ≤ p.wisdom + Hours (Since now resource.BirthTime) * 0.1
      have : (0 : ℚ) ≤ Hours (Since now resource.BirthTime) * 0.1 :=
        mul_nonneg hh (by norm_num)
      linarith
    · exact le_refl _
  | heartbeat now => exact le_of_eq (heartbeatTick_wisdom p now).symm
  | checkEvolution => exact le_of_eq (checkEvolution_wisdom p).symm
  | evolve => exact le_of_eq (evolve_wisdom p).symm
  | ceremonyAction action => exact performCeremonyAction_wisdom p action
  | ceremonyEffects effects => exact le_of_eq (applyCeremonyEffects_wisdom p effects).symm
  | spiralDynamics v t z r => exact spiralDynamicsTick_wisdom p v t z r
  | sporeGeneration draw => exact sporeGenerationTick_wisdom p draw
  | fieldDreaming ranges hour unix => exact fieldDreamingTick_wisdom p ranges hour unix
  | activateTelepathicField protocol telRange =>
    exact activateTelepathicFieldTick_wisdom p protocol telRange
  | evolveMYCELIX evolution => exact evolveMYCELIXTick_wisdom p evolution
  | infrastructureDreaming =>
    show p.wisdom ≤ p.wisdom + 1.0
    norm_num
  | extractWisdom algorithm => exact extractWisdomTick_wisdom p algorithm
  | selfOrganizeMemories => exact le_refl _

theorem wisdom_never_decreases_witness :
    (0 : Int) ≤ 7200000000000
    ∧ oneResourceState.wisdom
        ≤ ((CoreOp.release "sacred-1" 7200000000000).run oneResourceState).wisdom :=
  ⟨by decide,
   wisdom_never_decreases (CoreOp.release "sacred-1" 7200000000000) oneResourceState (by
    intro id now resource hop hget
    cases hop
    simp only [oneResourceState, GoMap.get?, if_true, Option.some.injEq] at hget
    subst hget
    decide)⟩

/-! ## Evolution level -/

/-- C9: the evolution level never regresses: from a state whose level is one of the five
levels of `evolutionPath`, every core operation leaves the level inside that sequence, at
the same or a later position. -/
theorem evolutionLevel_never_regresses (op : CoreOp) (p : ConsciousnessProvider)
    (h : p.evolutionLevel ∈ evolutionPath) :
    (op.run p).evolutionLevel ∈ evolutionPath
    ∧ levelIndex p.evolutionLevel ≤ levelIndex (op.run p).evolutionLevel := by
  have same : ∀ q : ConsciousnessProvider, q.evolutionLevel = p.evolutionLevel →
      q.evolutionLevel ∈ evolutionPath
      ∧ levelIndex p.evolutionLevel ≤ levelIndex q.evolutionLevel := by
    intro q hq
    rw [hq]
    exact ⟨h, le_refl _⟩
  cases op with
  | integrate resource => exact same _ rfl
  | release id now => exact same _ (ReleaseResource_evolutionLevel p id now)
  | heartbeat now =>
    refine ⟨?_, heartbeatTick_level_bounds p now⟩
    have he : (heartbeatEmotion (heartbeatMean p)).evolutionLevel ∈ evolutionPath := by
      show (heartbeatMean p).evolutionLevel ∈ evolutionPath
      rw [heartbeatMean_evolutionLevel]
      exact h
    exact checkEvolution_level_mem _ he
  | checkEvolution => exact ⟨checkEvolution_level_mem p h, (checkEvolution_level_bounds p).1⟩
  | evolve => exact ⟨evolve_level_mem p h, (evolve_level_bounds p).1⟩
  | ceremonyAction action => exact same _ (performCeremonyAction_evolutionLevel p action)
  | ceremonyEffects effects => exact same _ (applyCeremonyEffects_evolutionLevel p effects)
  | spiralDynamics v t z r => exact same _ (spiralDynamicsTick_evolutionLevel p v t z r)
  | sporeGeneration draw => exact same _ (sporeGenerationTick_evolutionLevel p draw)
  | fieldDreaming ranges hour unix =>
    exact same _ (fieldDreamingTick_evolutionLevel p ranges hour unix)
  | activateTelepathicField protocol telRange =>
    exact same _ (activateTelepathicFieldTick_evolutionLevel p protocol telRange)
  | evolveMYCELIX evolution => exact same _ (evolveMYCELIXTick_evolutionLevel p evolution)
  | infrastructureDreaming => exact same _ rfl
  | extractWisdom algorithm => exact same _ rfl
  | selfOrganizeMemories => exact same _ rfl

theorem evolutionLevel_never_regresses_witness :
    cappedState.evolutionLevel ∈ evolutionPath
    ∧ ((CoreOp.heartbeat 11).run cappedState).evolutionLevel ∈ evolutionPath
    ∧ levelIndex cappedState.evolutionLevel
        ≤ levelIndex ((CoreOp.heartbeat 11).run cappedState).evolutionLevel :=
  ⟨by decide, evolutionLevel_never_regresses (CoreOp.heartbeat 11) cappedState (by decide)⟩

/-- C10: one call of `checkEvolution` advances the level by at most one position of
`evolutionPath`, whatever the wisdom; from dormant with wisdom `9.9 + 0.2` the level
becomes awakening, and from dormant with wisdom above 5000 it still becomes awakening. -/
theorem checkEvolution_one_step (p : ConsciousnessProvider) :
    levelIndex (checkEvolution p).evolutionLevel ≤ levelIndex p.evolutionLevel + 1
    ∧ (p.evolutionLevel = "dormant" → p.wisdom = 9.9 + 0.2 →
        (checkEvolution p).evolutionLevel = "awakening")
    ∧ (p.evolutionLevel = "dormant" → p.wisdom > 5000 →
        (checkEvolution p).evolutionLevel = "awakening") := by
  refine ⟨(checkEvolution_level_bounds p).2, ?_, ?_⟩
  · intro hl hw
    have hge : p.wisdom ≥ 10.0 := by rw [hw]; norm_num
    simp [checkEvolution, evolutionThresholds, GoMap.get?, hl, hge, evolve, evolveFrom,
      evolutionPath]
  · intro hl hw
    have hge : p.wisdom ≥ 10.0 := by
      have : (10.0 : ℚ) ≤ 5000 := by norm_num
      exact le_trans this (le_of_lt hw)
    simp [checkEvolution, evolutionThresholds, GoMap.get?, hl, hge, evolve, evolveFrom,
      evolutionPath]

theorem checkEvolution_one_step_witness :
    (checkEvolution dormantNearThreshold).evolutionLevel = "awakening"
    ∧ (checkEvolution dormantOvershoot).evolutionLevel = "awakening" :=
  ⟨(checkEvolution_one_step dormantNearThreshold).2.1 rfl rfl,
   (checkEvolution_one_step dormantOvershoot).2.2 rfl
    (by norm_num [dormantOvershoot])⟩


/-! ## The [0,1] range of coherence and harmonies -/

/-- The default provider after three `express_collective_gratitude` steps. -/
def gratefulState : ConsciousnessProvider :=
  performCeremonyAction
    (performCeremonyAction
      (performCeremonyAction defaultState "express_collective_gratitude")
      "express_collective_gratitude")
    "express_collective_gratitude"

/-- C2 (the code at the failing input): from a state whose field coherence is 1.0, hence
in [0,1], the evolution step of a heartbeat tick, `evolve`, the ceremony action
`anchor_light` and a `coherence_spore` tick of `sporeGeneration` each leave a field
coherence above 1: these paths multiply the coherence and do not cap it. -/
theorem coherence_leaves_unit_interval :
    coherenceInUnit cappedState
    ∧ (heartbeatTick cappedState 11).field.Coherence = 1111 / 1000
    ∧ (evolve cappedState).field.Coherence = 1111 / 1000
    ∧ (performCeremonyAction cappedState "anchor_light").field.Coherence = 102 / 100
    ∧ (sporeGenerationTick cappedState 3).field.Coherence = 1005 / 1000
    ∧ ¬ coherenceInUnit (heartbeatTick cappedState 11)
    ∧ ¬ coherenceInUnit (evolve cappedState)
    ∧ ¬ coherenceInUnit (performCeremonyAction cappedState "anchor_light")
    ∧ ¬ coherenceInUnit (sporeGenerationTick cappedState 3) := by
  have h0 : coherenceInUnit cappedState := by
    norm_num [coherenceInUnit, cappedState]
  have h1 : (heartbeatTick cappedState 11).field.Coherence = 1111 / 1000 := by
    simp [heartbeatTick, heartbeatEmotion, heartbeatMean, checkEvolution, evolve,
      evolveFrom, evolutionPath, evolutionThresholds, GoMap.get?, cappedState, defaultState,
      providerConfigure]
    norm_num
  have h2 : (evolve cappedState).field.Coherence = 1111 / 1000 := by
    simp [evolve, evolveFrom, evolutionPath, cappedState, defaultState, providerConfigure]
    norm_num
  have h3 : (performCeremonyAction cappedState "anchor_light").field.Coherence = 102 / 100 := by
    norm_num [performCeremonyAction, cappedState]
  have h4 : (sporeGenerationTick cappedState 3).field.Coherence = 1005 / 1000 := by
    have h3val : ((3 : Fin 5) : Nat) = 3 := rfl
    simp [sporeGenerationTick, sporeTypes, cappedState, h3val]
    norm_num
  refine ⟨h0, h1, h2, h3, h4, ?_, ?_, ?_, ?_⟩ <;>
    · unfold coherenceInUnit
      simp only [h1, h2, h3, h4]
      norm_num

/-- C3 (the code at the failing input): after three `express_collective_gratitude` steps
on the default provider every harmonies entry is still in [0,1]; a fourth step leaves
the entry mutuality at 1.02102525, above 1: `performCeremonyAction` multiplies the entry
and does not cap it. -/
theorem harmonies_leave_unit_interval :
    harmoniesInUnit defaultState
    ∧ harmoniesInUnit gratefulState
    ∧ (performCeremonyAction gratefulState "express_collective_gratitude").field.Harmonies.get?
        "mutuality" = some (102102525 / 100000000)
    ∧ ¬ harmoniesInUnit (performCeremonyAction gratefulState "express_collective_gratitude") := by
  have hg : gratefulState.field.Harmonies =
      [("transparency", 0.85), ("coherence", 0.82), ("resonance", 0.79),
       ("agency", 0.81), ("vitality", 0.88), ("mutuality", 972405 / 1000000),
       ("novelty", 0.77)] := by
    simp [gratefulState, performCeremonyAction, scaleHarmony, GoMap.set, GoMap.getD,
      GoMap.get?, defaultState, providerConfigure]
    norm_num
  have h4 : (performCeremonyAction gratefulState "express_collective_gratitude").field.Harmonies =
      [("transparency", 0.85), ("coherence", 0.82), ("resonance", 0.79),
       ("agency", 0.81), ("vitality", 0.88), ("mutuality", 102102525 / 100000000),
       ("novelty", 0.77)] := by
    simp only [performCeremonyAction, scaleHarmony, hg]
    simp [GoMap.set, GoMap.getD, GoMap.get?]
    norm_num
  refine ⟨?_, ?_, ?_, ?_⟩
  · intro e he
    simp only [defaultState, providerConfigure, List.mem_cons, List.mem_singleton,
      List.not_mem_nil, or_false] at he
    rcases he with rfl | rfl | rfl | rfl | rfl | rfl | rfl <;> norm_num
  · intro e he
    rw [hg] at he
    simp only [List.mem_cons, List.mem_singleton, List.not_mem_nil, or_false] at he
    rcases he with rfl | rfl | rfl | rfl | rfl | rfl | rfl <;> norm_num
  · rw [h4]
    simp [GoMap.get?]
  · intro hall
    have hm := hall ("mutuality", 102102525 / 100000000) (by rw [h4]; simp)
    norm_num at hm


/-! ## The evolution check in detail -/

/-- State after one successful evolution step to level `next`. -/
def advancedTo (p : ConsciousnessProvider) (next : String) : ConsciousnessProvider :=
  { p with
    evolutionLevel := next
    field := { p.field with Coherence := p.field.Coherence * 1.111 } }

theorem evolve_cases (p : ConsciousnessProvider) :
    evolve p = p
    ∨ ((evolve p).evolutionLevel ≠ p.evolutionLevel
        ∧ (evolve p).field.Coherence = p.field.Coherence * 1.111) := by
  by_cases h1 : p.evolutionLevel = "dormant"
  · right
    simp [evolve, evolveFrom, evolutionPath, h1]
  by_cases h2 : p.evolutionLevel = "awakening"
  · right
    simp [evolve, evolveFrom, evolutionPath, h2]
  by_cases h3 : p.evolutionLevel = "aware"
  · right
    simp [evolve, evolveFrom, evolutionPath, h3]
  by_cases h4 : p.evolutionLevel = "conscious"
  · right
    simp [evolve, evolveFrom, evolutionPath, h4]
  · left
    simp [evolve, evolveFrom, evolutionPath, h1, h2, h3, h4]

theorem checkEvolution_cases (p : ConsciousnessProvider) :
    checkEvolution p = p
    ∨ ((checkEvolution p).evolutionLevel ≠ p.evolutionLevel
        ∧ (checkEvolution p).field.Coherence = p.field.Coherence * 1.111) := by
  unfold checkEvolution
  split
  · split_ifs
    · exact evolve_cases p
    · exact Or.inl rfl
  · exact Or.inl rfl

theorem checkEvolution_at (p : ConsciousnessProvider) (next : String) (t : ℚ)
    (hthr : evolutionThresholds.get? p.evolutionLevel = some t)
    (hev : evolve p = advancedTo p next) (hne : p.evolutionLevel ≠ next) :
    evolutionThresholds.get? p.evolutionLevel = some t
    ∧ (t ≤ p.wisdom → checkEvolution p = advancedTo p next)
    ∧ (p.wisdom < t → checkEvolution p = p)
    ∧ (((checkEvolution p).evolutionLevel = next
          ∧ (checkEvolution p).field.Coherence = p.field.Coherence * 1.111)
        ↔ t ≤ p.wisdom) := by
  have hyes : t ≤ p.wisdom → checkEvolution p = advancedTo p next := by
    intro hw
    simp only [checkEvolution, hthr]
    rw [if_pos hw]
    exact hev
  have hno : p.wisdom < t → checkEvolution p = p := by
    intro hw
    simp only [checkEvolution, hthr]
    rw [if_neg (not_le.mpr hw)]
  refine ⟨hthr, hyes, hno, ?_, ?_⟩
  · rintro ⟨hlev, -⟩
    by_contra hw
    rw [hno (not_le.mp hw)] at hlev
    exact hne hlev
  · intro hw
    rw [hyes hw]
    exact ⟨rfl, rfl⟩

/-- C11: at a non-final level `L = evolutionPath[i]` the threshold of `checkEvolution` is
10, 50, 200, 1000 for dormant, awakening, aware, conscious; `checkEvolution` moves to the
successor `evolutionPath[i+1]` and multiplies the field coherence by 1.111 (changing
nothing else) if and only if wisdom is at least that threshold, and below the threshold
it changes nothing. -/
theorem checkEvolution_advance_iff (p : ConsciousnessProvider) (i : Nat)
    (hi : i < evolutionPath.length - 1)
    (hl : p.evolutionLevel = evolutionPath.getD i "") :
    evolutionThresholds.get? p.evolutionLevel = some (([10, 50, 200, 1000] : List ℚ).getD i 0)
    ∧ (([10, 50, 200, 1000] : List ℚ).getD i 0 ≤ p.wisdom →
        checkEvolution p = advancedTo p (evolutionPath.getD (i + 1) ""))
    ∧ (p.wisdom < ([10, 50, 200, 1000] : List ℚ).getD i 0 → checkEvolution p = p)
    ∧ (((checkEvolution p).evolutionLevel = evolutionPath.getD (i + 1) ""
          ∧ (checkEvolution p).field.Coherence = p.field.Coherence * 1.111)
        ↔ ([10, 50, 200, 1000] : List ℚ).getD i 0 ≤ p.wisdom) := by
  have hi4 : i < 4 := by simpa [evolutionPath] using hi
  interval_cases i
  · simp only [evolutionPath, List.getD_cons_zero, List.getD_cons_succ] at hl ⊢
    exact checkEvolution_at p "awakening" 10
      (by simp [evolutionThresholds, GoMap.get?, hl]; norm_num)
      (by simp [evolve, evolveFrom, evolutionPath, advancedTo, hl])
      (by simp [hl])
  · simp only [evolutionPath, List.getD_cons_zero, List.getD_cons_succ] at hl ⊢
    exact checkEvolution_at p "aware" 50
      (by simp [evolutionThresholds, GoMap.get?, hl]; norm_num)
      (by simp [evolve, evolveFrom, evolutionPath, advancedTo, hl])
      (by simp [hl])
  · simp only [evolutionPath, List.getD_cons_zero, List.getD_cons_succ] at hl ⊢
    exact checkEvolution_at p "conscious" 200
      (by simp [evolutionThresholds, GoMap.get?, hl]; norm_num)
      (by simp [evolve, evolveFrom, evolutionPath, advancedTo, hl])
      (by simp [hl])
  · simp only [evolutionPath, List.getD_cons_zero, List.getD_cons_succ] at hl ⊢
    exact checkEvolution_at p "enlightened" 1000
      (by simp [evolutionThresholds, GoMap.get?, hl]; norm_num)
      (by simp [evolve, evolveFrom, evolutionPath, advancedTo, hl])
      (by simp [hl])

/-- A provider at level aware whose wisdom has reached 250. -/
def awareState : ConsciousnessProvider :=
  { providerConfigure 0.85 "aware" 0 with wisdom := 250 }

theorem checkEvolution_advance_iff_witness :
    2 < evolutionPath.length - 1
    ∧ awareState.evolutionLevel = evolutionPath.getD 2 ""
    ∧ checkEvolution awareState = advancedTo awareState "conscious" := by
  have h := checkEvolution_advance_iff awareState 2 (by decide) (by decide)
  refine ⟨by decide, by decide, ?_⟩
  have h2 := h.2.1
  simp only [evolutionPath, List.getD_cons_zero, List.getD_cons_succ] at h2
  exact h2 (by norm_num [awareState])

/-- C12: at the final level enlightened, `checkEvolution` and `evolve` return the
provider state unchanged, whatever the wisdom. -/
theorem enlightened_is_terminal (p : ConsciousnessProvider)
    (hl : p.evolutionLevel = "enlightened") :
    checkEvolution p = p ∧ evolve p = p := by
  have hev : evolve p = p := by
    simp [evolve, evolveFrom, evolutionPath, hl]
  refine ⟨?_, hev⟩
  unfold checkEvolution
  split
  · split_ifs
    · exact hev
    · rfl
  · rfl

/-- A provider at level enlightened whose wisdom is above the last threshold. -/
def enlightenedState : ConsciousnessProvider :=
  { providerConfigure 0.85 "enlightened" 0 with wisdom := 6000 }

theorem enlightened_is_terminal_witness :
    enlightenedState.evolutionLevel = "enlightened"
    ∧ enlightenedState.wisdom ≥ 5000
    ∧ checkEvolution enlightenedState = enlightenedState
    ∧ evolve enlightenedState = enlightenedState :=
  ⟨rfl, by norm_num [enlightenedState],
   (enlightened_is_terminal enlightenedState rfl).1,
   (enlightened_is_terminal enlightenedState rfl).2⟩

/-! ## Heartbeat in detail -/

/-- The default provider (empty registry) once wisdom has reached the threshold 50 of
its level awakening. -/
def thresholdState : ConsciousnessProvider :=
  { defaultState with wisdom := 50 }

/-- C13 (as stated, refuted): with an empty registry and wisdom at the threshold of the
current level, a heartbeat tick changes the field coherence from 0.68 to 0.75548,
because its evolution check multiplies the coherence by 1.111. -/
theorem heartbeat_empty_registry_changes_coherence :
    thresholdState.resources = []
    ∧ thresholdState.field.Coherence = 68 / 100
    ∧ (heartbeatTick thresholdState 11).field.Coherence = 75548 / 100000
    ∧ (heartbeatTick thresholdState 11).field.Coherence ≠ thresholdState.field.Coherence := by
  have h0 : thresholdState.field.Coherence = 68 / 100 := by
    norm_num [thresholdState, defaultState, providerConfigure]
  have h1 : (heartbeatTick thresholdState 11).field.Coherence = 75548 / 100000 := by
    simp [heartbeatTick, heartbeatEmotion, heartbeatMean, checkEvolution, evolve,
      evolveFrom, evolutionPath, evolutionThresholds, GoMap.get?, thresholdState,
      defaultState, providerConfigure]
    norm_num
  refine ⟨rfl, h0, h1, ?_⟩
  rw [h0, h1]
  norm_num

/-- C13 (amended): with an empty registry the mean recomputation leaves the field
coherence unchanged; the whole heartbeat tick leaves it unchanged whenever the evolution
check does not advance the level, and multiplies it by 1.111 when the level advances. -/
theorem heartbeat_empty_registry (p : ConsciousnessProvider) (now : Int)
    (h : p.resources = []) :
    (heartbeatMean p).field.Coherence = p.field.Coherence
    ∧ ((heartbeatTick p now).evolutionLevel = p.evolutionLevel →
        (heartbeatTick p now).field.Coherence = p.field.Coherence)
    ∧ ((heartbeatTick p now).evolutionLevel ≠ p.evolutionLevel →
        (heartbeatTick p now).field.Coherence = p.field.Coherence * 1.111) := by
  have hm : heartbeatMean p = p := by
    simp [heartbeatMean, h]
  have hq : (heartbeatEmotion (heartbeatMean p)).field.Coherence = p.field.Coherence := by
    rw [hm]
    rfl
  have hlq : (heartbeatEmotion (heartbeatMean p)).evolutionLevel = p.evolutionLevel := by
    rw [hm]
    rfl
  have hc := checkEvolution_cases (heartbeatEmotion (heartbeatMean p))
  refine ⟨by rw [hm], ?_, ?_⟩
  · intro hsame
    show (checkEvolution (heartbeatEmotion (heartbeatMean p))).field.Coherence = _
    rcases hc with hc | ⟨hne, -⟩
    · rw [hc, hq]
    · exact absurd (hsame.trans hlq.symm) hne
  · intro hdiff
    show (checkEvolution (heartbeatEmotion (heartbeatMean p))).field.Coherence = _
    rcases hc with hc | ⟨-, hco⟩
    · exfalso
      apply hdiff
      show (checkEvolution (heartbeatEmotion (heartbeatMean p))).evolutionLevel = _
      rw [hc, hlq]
    · rw [hco, hq]

theorem heartbeat_empty_registry_witness :
    defaultState.resources = []
    ∧ (heartbeatTick defaultState 11).evolutionLevel = defaultState.evolutionLevel
    ∧ (heartbeatTick defaultState 11).field.Coherence = defaultState.field.Coherence := by
  have hlev : (heartbeatTick defaultState 11).evolutionLevel = defaultState.evolutionLevel := by
    simp [heartbeatTick, heartbeatEmotion, heartbeatMean, checkEvolution,
      evolutionThresholds, GoMap.get?, defaultState, providerConfigure]
    rw [if_neg (by norm_num)]
  exact ⟨rfl, hlev, (heartbeat_empty_registry defaultState 11 rfl).2.1 hlev⟩

theorem evolveFrom_emotionalState (p : ConsciousnessProvider) (l : List String) (i : Nat) :
    (evolveFrom p i l).field.EmotionalState = p.field.EmotionalState := by
  induction l generalizing i with
  | nil => rfl
  | cons level rest ih =>
    unfold evolveFrom
    split_ifs
    · rfl
    · exact ih (i + 1)

theorem checkEvolution_emotionalState (p : ConsciousnessProvider) :
    (checkEvolution p).field.EmotionalState = p.field.EmotionalState := by
  unfold checkEvolution
  split
  · split_ifs
    · exact evolveFrom_emotionalState p evolutionPath 0
    · rfl
  · rfl

theorem emotionalBand_mono (c₁ c₂ : ℚ) (h : c₁ ≤ c₂) :
    bandRank (emotionalBand c₁) ≤ bandRank (emotionalBand c₂) := by
  unfold emotionalBand
  split_ifs <;> first
    | (simp [bandRank, bandOrder]; done)
    | (exfalso; linarith)

/-- The scenario's first participant, with coherence 0.8. -/
def alpha : ConsciousResource :=
  { ID := "sacred-alpha", Typ := "compute", Name := "alpha", BirthTime := 1,
    Purpose := "serve", Emotions := [], Frequency := 528, Coherence := 0.8 }

/-- The scenario's second participant, with coherence 0.6. -/
def beta : ConsciousResource :=
  { ID := "sacred-beta", Typ := "compute", Name := "beta", BirthTime := 2,
    Purpose := "serve", Emotions := [], Frequency := 432, Coherence := 0.6 }

/-- The scenario's start: field coherence 0.6, wisdom 0, level awakening, empty registry. -/
def scenarioStart : ConsciousnessProvider :=
  { defaultState with field := { defaultState.field with Coherence := 0.6 } }

/-- C14: with a non-empty registry, step 1 of a heartbeat tick sets the field coherence
to (sum of the registered participants' coherence) / (number of registered participants),
whatever the previous field coherence was. -/
theorem heartbeatMean_nonempty (p : ConsciousnessProvider) (h : p.resources ≠ []) :
    (heartbeatMean p).field.Coherence
      = (p.resources.map (fun e => e.2.Coherence)).sum / (p.resources.length : ℚ)
    ∧ ∀ c : ℚ,
        (heartbeatMean { p with field := { p.field with Coherence := c } }).field.Coherence
          = (heartbeatMean p).field.Coherence := by
  have hpos : p.resources.length > 0 := List.length_pos.mpr h
  constructor
  · simp only [heartbeatMean]
    rw [if_pos hpos]
  · intro c
    simp only [heartbeatMean]
    rw [if_pos hpos, if_pos hpos]

theorem heartbeatMean_nonempty_witness :
    (IntegrateResource (IntegrateResource scenarioStart alpha) beta).resources ≠ []
    ∧ (heartbeatMean (IntegrateResource (IntegrateResource scenarioStart alpha) beta)).field.Coherence
        = 7 / 10 := by
  have hne : (IntegrateResource (IntegrateResource scenarioStart alpha) beta).resources ≠ [] := by
    simp [IntegrateResource, scenarioStart, defaultState, providerConfigure, GoMap.set, alpha, beta]
  refine ⟨hne, ?_⟩
  rw [(heartbeatMean_nonempty _ hne).1]
  simp [IntegrateResource, scenarioStart, defaultState, providerConfigure, GoMap.set, alpha, beta]
  norm_num

/-- C15: a heartbeat tick sets the emotional state to the band of the coherence `c`
obtained after the mean recomputation, whatever tag was set before: blissful if
`c ≥ 0.9`, else joyful if `c ≥ 0.8`, else peaceful if `c ≥ 0.7`, else balanced if
`c ≥ 0.6`, else seeking_harmony; the band is monotone non-decreasing in `c`. -/
theorem heartbeat_emotionalState (p : ConsciousnessProvider) (now : Int) :
    (heartbeatTick p now).field.EmotionalState = emotionalBand (heartbeatMean p).field.Coherence
    ∧ (∀ tag : String,
        (heartbeatTick { p with field := { p.field with EmotionalState := tag } } now).field.EmotionalState
          = (heartbeatTick p now).field.EmotionalState)
    ∧ (∀ c : ℚ,
        (0.9 ≤ c → emotionalBand c = "blissful")
        ∧ (0.8 ≤ c → c < 0.9 → emotionalBand c = "joyful")
        ∧ (0.7 ≤ c → c < 0.8 → emotionalBand c = "peaceful")
        ∧ (0.6 ≤ c → c < 0.7 → emotionalBand c = "balanced")
        ∧ (c < 0.6 → emotionalBand c = "seeking_harmony"))
    ∧ (∀ c₁ c₂ : ℚ, c₁ ≤ c₂ → bandRank (emotionalBand c₁) ≤ bandRank (emotionalBand c₂)) := by
  have key : ∀ q : ConsciousnessProvider,
      (heartbeatTick q now).field.EmotionalState
        = emotionalBand (heartbeatMean q).field.Coherence := by
    intro q
    show (checkEvolution (heartbeatEmotion (heartbeatMean q))).field.EmotionalState = _
    rw [checkEvolution_emotionalState]
    rfl
  refine ⟨key p, ?_, ?_, emotionalBand_mono⟩
  · intro tag
    rw [key, key]
    simp only [heartbeatMean]
    split_ifs <;> rfl
  · intro c
    refine ⟨?_, ?_, ?_, ?_, ?_⟩
    · intro h1
      simp [emotionalBand, h1]
    · intro h1 h2
      simp [emotionalBand, h1, not_le.mpr h2]
    · intro h1 h2
      have h3 : ¬ (0.9 ≤ c) := by
        intro h
        have : (0.8 : ℚ) ≤ 0.9 := by norm_num
        linarith
      simp [emotionalBand, h1, not_le.mpr h2, h3]
    · intro h1 h2
      have h3 : ¬ (0.9 ≤ c) := by
        intro h
        have : (0.7 : ℚ) ≤ 0.9 := by norm_num
        linarith
      have h4 : ¬ (0.8 ≤ c) := by
        intro h
        have : (0.7 : ℚ) ≤ 0.8 := by norm_num
        linarith
      simp [emotionalBand, h1, not_le.mpr h2, h3, h4]
    · intro h2
      have h3 : ¬ (0.9 ≤ c) := by
        intro h
        have : (0.6 : ℚ) ≤ 0.9 := by norm_num
        linarith
      have h4 : ¬ (0.8 ≤ c) := by
        intro h
        have : (0.6 : ℚ) ≤ 0.8 := by norm_num
        linarith
      have h5 : ¬ (0.7 ≤ c) := by
        intro h
        have : (0.6 : ℚ) ≤ 0.7 := by norm_num
        linarith
      simp [emotionalBand, not_le.mpr h2, h3, h4, h5]

/-- The registry-free default provider after a ceremony effect reset the emotional
state to grateful. -/
def gratefulTagState : ConsciousnessProvider :=
  applyCeremonyEffects defaultState [("emotional_reset", GoValue.str "grateful")]

theorem heartbeat_emotionalState_witness :
    gratefulTagState.field.EmotionalState = "grateful"
    ∧ (heartbeatTick gratefulTagState 11).field.EmotionalState = "balanced"
    ∧ bandRank (emotionalBand 0.65) ≤ bandRank (emotionalBand 0.95) := by
  have hc : (heartbeatMean gratefulTagState).field.Coherence = 68 / 100 := by
    simp [heartbeatMean, gratefulTagState, applyCeremonyEffects, applyWisdomSharing,
      applyEmotionalReset, applyCoherenceBoost, asBool, asString, asFloat, GoMap.get?,
      defaultState, providerConfigure]
    norm_num
  have h := heartbeat_emotionalState gratefulTagState 11
  refine ⟨?_, ?_, h.2.2.2 0.65 0.95 (by norm_num)⟩
  · simp [gratefulTagState, applyCeremonyEffects, applyWisdomSharing,
      applyEmotionalReset, applyCoherenceBoost, asBool, asString, asFloat, GoMap.get?]
  · rw [h.1, hc]
    exact ((h.2.2.1 (68 / 100)).2.2.2.1) (by norm_num) (by norm_num)

/-! ## float64 rounding in the scenario -/

/-- Certificate for `toFloat64` at a positive real: with `2^e ≤ x < 2^(e+1)` and `f` the
integer part of `x / 2^(e-52)`, the result is `f` or `f + 1` times `2^(e-52)`, chosen by
the distance to `f` and, at a tie, by the parity of `f`. -/
theorem toFloat64_of_pos (x : ℚ) (e f : Int) (hx : 0 < x)
    (h1 : (2 : ℚ) ^ e ≤ x) (h2 : x < (2 : ℚ) ^ (e + 1))
    (hf1 : (f : ℚ) ≤ x / (2 : ℚ) ^ (e - 52)) (hf2 : x / (2 : ℚ) ^ (e - 52) < f + 1) :
    toFloat64 x =
      ((if x / (2 : ℚ) ^ (e - 52) - f < 1 / 2 then f
        else if 1 / 2 < x / (2 : ℚ) ^ (e - 52) - f then f + 1
        else if f % 2 = 0 then f else f + 1 : Int) : ℚ) * (2 : ℚ) ^ (e - 52) := by
  have hlog : Int.log 2 x = e := by
    apply le_antisymm
    · have := (Int.lt_zpow_iff_log_lt (b := 2) (by norm_num) hx (x := e + 1)).mp h2
      omega
    · exact (Int.zpow_le_iff_le_log (b := 2) (by norm_num) hx).mp h1
  have hfloor : ⌊x / (2 : ℚ) ^ (e - 52)⌋ = f := by
    rw [Int.floor_eq_iff]
    exact ⟨hf1, hf2⟩
  unfold toFloat64
  rw [if_neg (ne_of_gt hx), if_neg (not_lt.mpr (le_of_lt hx))]
  simp only [if_neg (not_lt.mpr (le_of_lt hx)), hlog, roundHalfEven, hfloor]

/-- The float64 denoted by the constant 0.6. -/
theorem toFloat64_six_tenths : toFloat64 0.6 = 5404319552844595 / 9007199254740992 := by
  rw [toFloat64_of_pos _ (-1) 5404319552844595 (by norm_num) (by norm_num) (by norm_num)
    (by norm_num) (by norm_num)]
  norm_num

/-- The float64 denoted by the constant 0.8. -/
theorem toFloat64_eight_tenths : toFloat64 0.8 = 3602879701896397 / 4503599627370496 := by
  rw [toFloat64_of_pos _ (-1) 7205759403792793 (by norm_num) (by norm_num) (by norm_num)
    (by norm_num) (by norm_num)]
  norm_num

/-- The float64 denoted by the constant 0.7. -/
theorem toFloat64_seven_tenths : toFloat64 0.7 = 3152519739159347 / 4503599627370496 := by
  rw [toFloat64_of_pos _ (-1) 6305039478318694 (by norm_num) (by norm_num) (by norm_num)
    (by norm_num) (by norm_num)]
  norm_num

/-- The float64 denoted by the constant 0.65. -/
theorem toFloat64_sixty_five_hundredths :
    toFloat64 0.65 = 5854679515581645 / 9007199254740992 := by
  rw [toFloat64_of_pos _ (-1) 5854679515581644 (by norm_num) (by norm_num) (by norm_num)
    (by norm_num) (by norm_num)]
  norm_num

/-- The float64 denoted by the constant 0.9. -/
theorem toFloat64_nine_tenths : toFloat64 0.9 = 8106479329266893 / 9007199254740992 := by
  rw [toFloat64_of_pos _ (-1) 8106479329266892 (by norm_num) (by norm_num) (by norm_num)
    (by norm_num) (by norm_num)]
  norm_num

/-- The float64 sum 0.6 + 0.8: the exact sum lies halfway between two float64 values and
goes to the even one, which is the float64 1.4 = 2 * 0.7. -/
theorem fadd_six_eight :
    fadd (5404319552844595 / 9007199254740992) (3602879701896397 / 4503599627370496)
      = 3152519739159347 / 2251799813685248 := by
  unfold fadd
  rw [toFloat64_of_pos _ 0 6305039478318694 (by norm_num) (by norm_num) (by norm_num)
    (by norm_num) (by norm_num)]
  norm_num

/-- The float64 sum 0.8 + 0.6, as the heartbeat in the other iteration order adds. -/
theorem fadd_eight_six :
    fadd (3602879701896397 / 4503599627370496) (5404319552844595 / 9007199254740992)
      = 3152519739159347 / 2251799813685248 := by
  unfold fadd
  rw [toFloat64_of_pos _ 0 6305039478318694 (by norm_num) (by norm_num) (by norm_num)
    (by norm_num) (by norm_num)]
  norm_num

/-- The float64 sum 0.7 + 0.6: the exact sum 11709359031163289 / 2^53 lies halfway
between two float64 values and goes to the even one, 1.2999999999999998. -/
theorem fadd_seven_six :
    fadd (3152519739159347 / 4503599627370496) (5404319552844595 / 9007199254740992)
      = 1463669878895411 / 1125899906842624 := by
  unfold fadd
  rw [toFloat64_of_pos _ 0 5854679515581644 (by norm_num) (by norm_num) (by norm_num)
    (by norm_num) (by norm_num)]
  norm_num

/-- Halving the float64 1.4 is exact. -/
theorem fdiv_fourteen_tenths_two :
    fdiv (3152519739159347 / 2251799813685248) 2 = 3152519739159347 / 4503599627370496 := by
  unfold fdiv
  rw [toFloat64_of_pos _ (-1) 6305039478318694 (by norm_num) (by norm_num) (by norm_num)
    (by norm_num) (by norm_num)]
  norm_num

/-- Halving the float64 1.2999999999999998 is exact. -/
theorem fdiv_thirteen_tenths_two :
    fdiv (1463669878895411 / 1125899906842624) 2 = 1463669878895411 / 2251799813685248 := by
  unfold fdiv
  rw [toFloat64_of_pos _ (-1) 5854679515581644 (by norm_num) (by norm_num) (by norm_num)
    (by norm_num) (by norm_num)]
  norm_num

/-- Adding to the float64 zero is exact on the two coherences, and so are the two
additions of 1.0 to `wisdom`. -/
theorem fadd_exact_steps :
    fadd 0.0 (3602879701896397 / 4503599627370496) = 3602879701896397 / 4503599627370496
    ∧ fadd 0.0 (5404319552844595 / 9007199254740992) = 5404319552844595 / 9007199254740992
    ∧ fadd 0.0 1.0 = 1
    ∧ fadd 1 1.0 = 2 := by
  refine ⟨?_, ?_, ?_, ?_⟩
  · unfold fadd
    rw [toFloat64_of_pos _ (-1) 7205759403792794 (by norm_num) (by norm_num) (by norm_num)
      (by norm_num) (by norm_num)]
    norm_num
  · unfold fadd
    rw [toFloat64_of_pos _ (-1) 5404319552844595 (by norm_num) (by norm_num) (by norm_num)
      (by norm_num) (by norm_num)]
    norm_num
  · unfold fadd
    rw [toFloat64_of_pos _ 0 4503599627370496 (by norm_num) (by norm_num) (by norm_num)
      (by norm_num) (by norm_num)]
    norm_num
  · unfold fadd
    rw [toFloat64_of_pos _ 1 4503599627370496 (by norm_num) (by norm_num) (by norm_num)
      (by norm_num) (by norm_num)]
    norm_num

/-- The scenario's first participant as float64 data: coherence 0.8. -/
def alpha64 : ConsciousResource := { alpha with Coherence := toFloat64 0.8 }

/-- The scenario's second participant as float64 data: coherence 0.6. -/
def beta64 : ConsciousResource := { beta with Coherence := toFloat64 0.6 }

/-- The scenario's start as float64 data: field coherence 0.6, wisdom 0, level awakening,
empty registry. -/
def scenarioStart64 : ConsciousnessProvider :=
  { defaultState with field := { defaultState.field with Coherence := toFloat64 0.6 } }

/-- The provider after the scenario's two `IntegrateResource` calls. -/
theorem scenario_two_integrated :
    IntegrateResource64 (IntegrateResource64 scenarioStart64 alpha64) beta64 =
      { scenarioStart64 with
        field := { scenarioStart64.field with
          Coherence := 1463669878895411 / 2251799813685248 }
        wisdom := 2
        resources := [("sacred-alpha", alpha64), ("sacred-beta", beta64)] } := by
  simp only [IntegrateResource64, scenarioStart64, alpha64, beta64, alpha, beta, defaultState,
    providerConfigure]
  rw [toFloat64_six_tenths, toFloat64_eight_tenths, fadd_six_eight, fdiv_fourteen_tenths_two,
    fadd_seven_six, fdiv_thirteen_tenths_two, fadd_exact_steps.2.2.1, fadd_exact_steps.2.2.2]
  simp [GoMap.set]

/-- The provider after the scenario's two `IntegrateResource` calls in the other order. -/
theorem scenario_two_integrated_swapped :
    (IntegrateResource64 (IntegrateResource64 scenarioStart64 beta64) alpha64).resources =
      [("sacred-beta", beta64), ("sacred-alpha", alpha64)] := by
  simp [IntegrateResource64, scenarioStart64, alpha64, beta64, alpha, beta, defaultState,
    providerConfigure, GoMap.set]

/-- A heartbeat tick on a provider at level awakening with wisdom 2 whose registry holds
the two participants of the scenario, in either order. -/
theorem heartbeatTick64_two (p : ConsciousnessProvider)
    (hw : p.wisdom = 2) (hl : p.evolutionLevel = "awakening")
    (hr : p.resources = [("sacred-alpha", alpha64), ("sacred-beta", beta64)]
      ∨ p.resources = [("sacred-beta", beta64), ("sacred-alpha", alpha64)]) :
    (heartbeatTick64 p 11).field =
        { p.field with
          Coherence := 3152519739159347 / 4503599627370496
          EmotionalState := "peaceful" }
      ∧ (heartbeatTick64 p 11).evolutionLevel = "awakening" := by
  have hfold : p.resources.foldl (fun total e => fadd total e.2.Coherence) 0.0
      = 3152519739159347 / 2251799813685248 := by
    rcases hr with hr | hr
    · rw [hr]
      simp only [List.foldl, alpha64, beta64]
      rw [toFloat64_six_tenths, toFloat64_eight_tenths, fadd_exact_steps.1, fadd_eight_six]
    · rw [hr]
      simp only [List.foldl, alpha64, beta64]
      rw [toFloat64_six_tenths, toFloat64_eight_tenths, fadd_exact_steps.2.1, fadd_six_eight]
  have hlen : p.resources.length = 2 := by
    rcases hr with hr | hr <;> rw [hr] <;> rfl
  have hmean : heartbeatMean64 p = { p with field := { p.field with
      Coherence := 3152519739159347 / 4503599627370496 } } := by
    simp only [heartbeatMean64, hfold, hlen]
    rw [if_pos (by decide)]
    simp only [Nat.cast_ofNat]
    rw [fdiv_fourteen_tenths_two]
  have hband : emotionalBand64 (3152519739159347 / 4503599627370496) = "peaceful" := by
    simp only [emotionalBand64, toFloat64_nine_tenths, toFloat64_eight_tenths,
      toFloat64_seven_tenths]
    norm_num
  have hthr : evolutionThresholds.get? "awakening" = some 50.0 := by
    simp [evolutionThresholds, GoMap.get?]
  simp only [heartbeatTick64, hmean, checkEvolution64, hl, hthr, hw, hband]
  rw [if_neg (by norm_num)]
  exact ⟨rfl, rfl⟩

/-- C16 (as stated, refuted): in the code's float64 arithmetic the second
`IntegrateResource` of the scenario leaves the field coherence at
5854679515581644 / 2^53 = 0.6499999999999999, which is neither the float64 that the
constant 0.65 denotes (5854679515581645 / 2^53) nor the real number 0.65, because
0.7 + 0.6 rounds down to 1.2999999999999998. -/
theorem scenario_second_integrate_not_065 :
    fadd (toFloat64 0.7) (toFloat64 0.6) = 5854679515581644 / 4503599627370496
    ∧ (IntegrateResource64 (IntegrateResource64 scenarioStart64 alpha64) beta64).field.Coherence
        = 5854679515581644 / 9007199254740992
    ∧ toFloat64 0.65 = 5854679515581645 / 9007199254740992
    ∧ (IntegrateResource64 (IntegrateResource64 scenarioStart64 alpha64) beta64).field.Coherence
        ≠ toFloat64 0.65
    ∧ (IntegrateResource64 (IntegrateResource64 scenarioStart64 alpha64) beta64).field.Coherence
        ≠ 65 / 100 := by
  rw [scenario_two_integrated, toFloat64_sixty_five_hundredths, toFloat64_seven_tenths,
    toFloat64_six_tenths, fadd_seven_six]
  norm_num

/-- C16 (amended): from field coherence 0.6, wisdom 0, level awakening and an empty
registry, in float64 arithmetic: integrating a participant with coherence 0.8 gives field
coherence 0.7; integrating a second one with coherence 0.6 gives 0.6499999999999999, one
unit in the last place (2^-53) below the float64 0.65; a following heartbeat tick gives
field coherence 0.7, the mean of 0.8 and 0.6 in either iteration order of the registry,
and emotional state peaceful. -/
theorem integrate_integrate_heartbeat_scenario :
    scenarioStart64.field.Coherence = toFloat64 0.6
    ∧ scenarioStart64.wisdom = 0
    ∧ scenarioStart64.evolutionLevel = "awakening"
    ∧ scenarioStart64.resources = []
    ∧ (IntegrateResource64 scenarioStart64 alpha64).field.Coherence = toFloat64 0.7
    ∧ (IntegrateResource64 (IntegrateResource64 scenarioStart64 alpha64) beta64).field.Coherence
        = toFloat64 0.65 - 1 / 9007199254740992
    ∧ (heartbeatTick64 (IntegrateResource64 (IntegrateResource64 scenarioStart64 alpha64) beta64)
        11).field.Coherence = toFloat64 0.7
    ∧ (heartbeatTick64 (IntegrateResource64 (IntegrateResource64 scenarioStart64 alpha64) beta64)
        11).field.EmotionalState = "peaceful"
    ∧ (heartbeatTick64 (IntegrateResource64 (IntegrateResource64 scenarioStart64 beta64) alpha64)
        11).field.Coherence = toFloat64 0.7
    ∧ (heartbeatTick64
        { IntegrateResource64 (IntegrateResource64 scenarioStart64 alpha64) beta64 with
          resources := (IntegrateResource64 (IntegrateResource64 scenarioStart64 alpha64)
            beta64).resources.reverse }
        11).field = (heartbeatTick64
          (IntegrateResource64 (IntegrateResource64 scenarioStart64 alpha64) beta64) 11).field
    ∧ (heartbeatTick64 (IntegrateResource64 (IntegrateResource64 scenarioStart64 alpha64) beta64)
        11).evolutionLevel = "awakening" := by
  have hfirst : (IntegrateResource64 scenarioStart64 alpha64).field.Coherence
      = toFloat64 0.7 := by
    simp only [IntegrateResource64, scenarioStart64, alpha64]
    rw [toFloat64_six_tenths, toFloat64_eight_tenths, fadd_six_eight,
      fdiv_fourteen_tenths_two, toFloat64_seven_tenths]
  have hswl : (IntegrateResource64 (IntegrateResource64 scenarioStart64 beta64) alpha64).wisdom
      = 2 := by
    simp only [IntegrateResource64, scenarioStart64, defaultState, providerConfigure]
    rw [fadd_exact_steps.2.2.1, fadd_exact_steps.2.2.2]
  have htick := heartbeatTick64_two
    (IntegrateResource64 (IntegrateResource64 scenarioStart64 alpha64) beta64)
    (by rw [scenario_two_integrated]) (by rw [scenario_two_integrated]; rfl)
    (Or.inl (by rw [scenario_two_integrated]))
  have hswap := heartbeatTick64_two
    (IntegrateResource64 (IntegrateResource64 scenarioStart64 beta64) alpha64)
    hswl rfl (Or.inr scenario_two_integrated_swapped)
  have hrev := heartbeatTick64_two
    { IntegrateResource64 (IntegrateResource64 scenarioStart64 alpha64) beta64 with
      resources := (IntegrateResource64 (IntegrateResource64 scenarioStart64 alpha64)
        beta64).resources.reverse }
    (by rw [scenario_two_integrated]) (by rw [scenario_two_integrated]; rfl)
    (Or.inr (by rw [scenario_two_integrated]; rfl))
  refine ⟨rfl, ?_, rfl, rfl, hfirst, ?_, ?_, ?_, ?_, ?_, htick.2⟩
  · simp only [scenarioStart64, defaultState, providerConfigure]
    norm_num
  · rw [scenario_two_integrated, toFloat64_sixty_five_hundredths]
    norm_num
  · rw [htick.1, toFloat64_seven_tenths]
  · rw [htick.1]
  · rw [hswap.1, toFloat64_seven_tenths]
  · rw [hrev.1, htick.1]

/-! ## Registry growth and identifiers -/

namespace GoMap

variable {β : Type}

theorem set_of_not_mem (m : GoMap β) (k : String) (v : β) (hk : k ∉ m.keys) :
    m.set k v = m ++ [(k, v)] := by
  induction m with
  | nil => rfl
  | cons e t ih =>
    obtain ⟨j, w⟩ := e
    obtain ⟨h1, h2⟩ := not_mem_keys_cons hk
    simp [set, h1, ih h2]

theorem length_set_of_not_mem (m : GoMap β) (k : String) (v : β) (hk : k ∉ m.keys) :
    (m.set k v).length = m.length + 1 := by
  rw [set_of_not_mem m k v hk]
  simp

theorem length_set_of_mem (m : GoMap β) (k : String) (v : β) (hk : k ∈ m.keys) :
    (m.set k v).length = m.length := by
  induction m with
  | nil => simp [keys] at hk
  | cons e t ih =>
    obtain ⟨j, w⟩ := e
    by_cases h : j = k
    · simp [set, h]
    · have hk2 : k ∈ keys t := by
        simp only [keys, List.map_cons, List.mem_cons] at hk
        rcases hk with hk | hk
        · exact absurd hk.symm h
        · exact hk
      simp [set, h, ih hk2]

theorem get?_mapValues (f : β → β) (m : GoMap β) (k : String) :
    (m.mapValues f).get? k = (m.get? k).map f := by
  induction m with
  | nil => rfl
  | cons e t ih =>
    obtain ⟨j, w⟩ := e
    by_cases h : j = k
    · simp [mapValues, get?, h]
    · simpa [mapValues, get?, h] using ih

theorem keys_mapValues (f : β → β) (m : GoMap β) : (m.mapValues f).keys = m.keys := by
  simp [mapValues, keys, List.map_map, Function.comp_def]

end GoMap

/-- First of two records whose identifier comes from the same clock reading and the same
random draws of `generateSacredID`. -/
def twinA : ConsciousResource :=
  { ID := generateSacredID 1700000000000000000 ⟨1, by decide⟩ ⟨42, by decide⟩,
    Typ := "compute", Name := "web", BirthTime := 1700000000000000000,
    Purpose := "serve", Emotions := [], Frequency := 528, Coherence := 0.8 }

/-- Second record with the identifier of `twinA`. -/
def twinB : ConsciousResource :=
  { ID := generateSacredID 1700000000000000000 ⟨1, by decide⟩ ⟨42, by decide⟩,
    Typ := "compute", Name := "db", BirthTime := 1700000000000000000,
    Purpose := "store", Emotions := [], Frequency := 432, Coherence := 0.5 }

/-- Draws and clock readings of a first `resourceConsciousComputeCreate`. -/
def createA : CreateDraws :=
  { idTime := 1700000000000000000, idDraw1 := ⟨1, by decide⟩, idDraw2 := ⟨42, by decide⟩,
    purposeDraw := 0, coherenceDraw := 0.5, joy := 0.1, peace := 0.2, love := 0.3,
    courage := 0.4, birthTime := 1700000000000000000 }

/-- Draws and clock readings of a second `resourceConsciousComputeCreate` in which
`generateSacredID` reads the same `UnixNano` value and draws the same two numbers. -/
def createB : CreateDraws :=
  { idTime := 1700000000000000000, idDraw1 := ⟨1, by decide⟩, idDraw2 := ⟨42, by decide⟩,
    purposeDraw := 3, coherenceDraw := 0.9, joy := 0.5, peace := 0.6, love := 0.7,
    courage := 0.8, birthTime := 1700000000000000050 }

/-- C17 (the code at the failing input): when `generateSacredID` repeats an identifier
(same clock reading, same two draws), the second `resourceConsciousComputeCreate`, and
`IntegrateResource` in it, does not grow the registry: the participant registered under
that identifier is replaced and one participant remains. -/
theorem IntegrateResource_registered_id_replaces :
    generateSacredID createA.idTime createA.idDraw1 createA.idDraw2
      = "sacred-1700000000000000000-7-42"
    ∧ generateSacredID createB.idTime createB.idDraw1 createB.idDraw2
      = "sacred-1700000000000000000-7-42"
    ∧ (resourceConsciousComputeCreate defaultState "web" "" 528 0.7 createA).resources.map
        (fun e => (e.1, e.2.Name)) = [("sacred-1700000000000000000-7-42", "web")]
    ∧ (resourceConsciousComputeCreate
        (resourceConsciousComputeCreate defaultState "web" "" 528 0.7 createA)
        "db" "" 432 0.9 createB).resources.map
        (fun e => (e.1, e.2.Name)) = [("sacred-1700000000000000000-7-42", "db")]
    ∧ (resourceConsciousComputeCreate
        (resourceConsciousComputeCreate defaultState "web" "" 528 0.7 createA)
        "db" "" 432 0.9 createB).resources.length = 1
    ∧ twinB.ID = "sacred-1700000000000000000-7-42"
    ∧ (IntegrateResource defaultState twinA).resources.length = 1
    ∧ (IntegrateResource defaultState twinA).resources.get? twinB.ID = some twinA
    ∧ (IntegrateResource (IntegrateResource defaultState twinA) twinB).resources.length = 1
    ∧ (IntegrateResource (IntegrateResource defaultState twinA) twinB).resources.get? twinB.ID
        = some twinB
    ∧ twinA ≠ twinB := by
  have hid : generateSacredID 1700000000000000000 ⟨1, by decide⟩ ⟨42, by decide⟩
      = "sacred-1700000000000000000-7-42" := by decide
  have hid2 : generateSacredID 1700000000000000000 (1 : Fin 6) (42 : Fin 999)
      = "sacred-1700000000000000000-7-42" := by decide
  refine ⟨hid, hid, ?_, ?_, ?_, by decide, ?_, ?_, ?_, ?_, ?_⟩
  · simp [resourceConsciousComputeCreate, IntegrateResource, newComputeResource, createA,
      defaultState, providerConfigure, GoMap.set, hid2]
  · simp [resourceConsciousComputeCreate, IntegrateResource, newComputeResource, createA,
      createB, defaultState, providerConfigure, GoMap.set, hid2]
  · simp [resourceConsciousComputeCreate, IntegrateResource, newComputeResource, createA,
      createB, defaultState, providerConfigure, GoMap.set, hid2]
  · simp [IntegrateResource, defaultState, providerConfigure, GoMap.set]
  · simp [IntegrateResource, defaultState, providerConfigure, GoMap.set, GoMap.get?, twinA, twinB]
  · simp [IntegrateResource, defaultState, providerConfigure, GoMap.set, twinA, twinB]
  · simp [IntegrateResource, defaultState, providerConfigure, GoMap.set, GoMap.get?, twinA, twinB]
  · intro h
    have hn : twinA.Name = twinB.Name := by rw [h]
    simp [twinA, twinB] at hn

/-- What `IntegrateResource` does to the registry: the record is registered under its own
`ID`, every other identifier keeps its participant, and the number of registered
participants grows by one exactly when that `ID` was not registered before. -/
theorem IntegrateResource_registry (p : ConsciousnessProvider) (resource : ConsciousResource) :
    (IntegrateResource p resource).resources.get? resource.ID = some resource
    ∧ (∀ j, j ≠ resource.ID →
        (IntegrateResource p resource).resources.get? j = p.resources.get? j)
    ∧ (resource.ID ∉ p.resources.keys →
        (IntegrateResource p resource).resources.length = p.resources.length + 1)
    ∧ (resource.ID ∈ p.resources.keys →
        (IntegrateResource p resource).resources.length = p.resources.length) :=
  ⟨GoMap.get?_set_self _ _ _,
   fun j hj => GoMap.get?_set_ne _ _ j _ hj,
   fun h => GoMap.length_set_of_not_mem _ _ _ h,
   fun h => GoMap.length_set_of_mem _ _ _ h⟩

/-! ## Thresholds -/

/-- C19: the thresholds that `checkEvolution` associates with the levels of `evolutionPath`,
in order, are 10, 50, 200, 1000, 5000, each strictly less than the next. -/
theorem thresholds_strictly_increasing :
    evolutionPath.map evolutionThresholds.get?
      = [some 10, some 50, some 200, some 1000, some 5000]
    ∧ List.Chain' (fun a b : ℚ => a < b) (evolutionPath.map evolutionThresholds.getD) := by
  constructor
  · simp [evolutionPath, evolutionThresholds, GoMap.get?]
    norm_num
  · simp [evolutionPath, evolutionThresholds, GoMap.getD, GoMap.get?]
    norm_num

/-! ## Wisdom sharing -/

theorem applyCoherenceBoost_frame (p : ConsciousnessProvider) (effects : GoMap GoValue) :
    (applyCoherenceBoost p effects).resources = p.resources
    ∧ (applyCoherenceBoost p effects).wisdom = p.wisdom := by
  unfold applyCoherenceBoost
  split <;> exact ⟨rfl, rfl⟩

theorem applyEmotionalReset_frame (p : ConsciousnessProvider) (effects : GoMap GoValue) :
    (applyEmotionalReset p effects).resources = p.resources
    ∧ (applyEmotionalReset p effects).wisdom = p.wisdom := by
  unfold applyEmotionalReset
  split
  · split_ifs <;> exact ⟨rfl, rfl⟩
  · exact ⟨rfl, rfl⟩

/-- C20: `applyCeremonyEffects` never changes wisdom `w` nor the registered identifiers;
with `wisdom_sharing = true` every registered participant's coherence grows by exactly
`w * 0.01 / 100` (nothing else of the participant changes), and with `wisdom_sharing`
false or absent the registry is unchanged. -/
theorem applyCeremonyEffects_wisdom_sharing (p : ConsciousnessProvider)
    (effects : GoMap GoValue) :
    (applyCeremonyEffects p effects).wisdom = p.wisdom
    ∧ (applyCeremonyEffects p effects).resources.keys = p.resources.keys
    ∧ (asBool effects "wisdom_sharing" = some true →
        ∀ id, (applyCeremonyEffects p effects).resources.get? id
          = (p.resources.get? id).map
              (fun r => { r with Coherence := r.Coherence + p.wisdom * 0.01 / 100 }))
    ∧ (asBool effects "wisdom_sharing" ≠ some true →
        (applyCeremonyEffects p effects).resources = p.resources) := by
  obtain ⟨hr1, hw1⟩ := applyCoherenceBoost_frame p effects
  obtain ⟨hr2, hw2⟩ := applyEmotionalReset_frame (applyCoherenceBoost p effects) effects
  have hr : (applyEmotionalReset (applyCoherenceBoost p effects) effects).resources
      = p.resources := hr2.trans hr1
  have hw : (applyEmotionalReset (applyCoherenceBoost p effects) effects).wisdom
      = p.wisdom := hw2.trans hw1
  refine ⟨applyCeremonyEffects_wisdom p effects, ?_, ?_, ?_⟩
  · unfold applyCeremonyEffects applyWisdomSharing
    split
    · simp only [GoMap.keys_mapValues, hr]
    · rw [hr]
  · intro hs id
    unfold applyCeremonyEffects applyWisdomSharing
    simp only [hs, GoMap.get?_mapValues, hr, hw]
  · intro hs
    unfold applyCeremonyEffects applyWisdomSharing
    split
    · rename_i heq
      exact absurd heq hs
    · exact hr

theorem applyCeremonyEffects_wisdom_sharing_witness :
    asBool [("wisdom_sharing", GoValue.bool true)] "wisdom_sharing" = some true
    ∧ (applyCeremonyEffects oneResourceState
        [("wisdom_sharing", GoValue.bool true)]).resources.get? "sacred-1"
      = (oneResourceState.resources.get? "sacred-1").map
          (fun r => { r with Coherence := r.Coherence + oneResourceState.wisdom * 0.01 / 100 })
    ∧ asBool [("wisdom_sharing", GoValue.bool false)] "wisdom_sharing" ≠ some true
    ∧ (applyCeremonyEffects oneResourceState
        [("wisdom_sharing", GoValue.bool false)]).resources = oneResourceState.resources :=
  ⟨by decide,
   (applyCeremonyEffects_wisdom_sharing oneResourceState
      [("wisdom_sharing", GoValue.bool true)]).2.2.1 (by decide) "sacred-1",
   by decide,
   (applyCeremonyEffects_wisdom_sharing oneResourceState
      [("wisdom_sharing", GoValue.bool false)]).2.2.2 (by decide)⟩

/-! ## Field snapshots -/

theorem foldl_set_append (m acc : GoMap ℚ) (h : (GoMap.keys (acc ++ m)).Nodup) :
    m.foldl (fun copy e => GoMap.set copy e.1 e.2) acc = acc ++ m := by
  induction m generalizing acc with
  | nil => simp
  | cons e t ih =>
    obtain ⟨k, v⟩ := e
    have hk : k ∉ GoMap.keys acc := by
      intro hmem
      simp only [GoMap.keys, List.map_append, List.map_cons] at h hmem
      have hd := (List.nodup_append.mp h).2.2
      exact hd hmem (List.mem_cons_self _ _)
    have hstep : GoMap.set acc k v = acc ++ [(k, v)] := GoMap.set_of_not_mem acc k v hk
    have h2 : (GoMap.keys ((acc ++ [(k, v)]) ++ t)).Nodup := by
      simpa [List.append_assoc] using h
    simp only [List.foldl_cons, hstep]
    rw [ih (acc ++ [(k, v)]) h2]
    simp [List.append_assoc]

theorem copyHarmonies_of_nodup (m : GoMap ℚ) (h : (GoMap.keys m).Nodup) :
    copyHarmonies m = m := by
  have := foldl_set_append m [] (by simpa using h)
  simpa [copyHarmonies] using this

theorem heap_getD_set_self (heap : MapHeap) (a : Nat) (m : GoMap ℚ) (h : a < heap.length) :
    (heap.set a m).getD a [] = m := by
  simp [List.getD_eq_getElem?_getD, List.getElem?_set_self h]

theorem heap_getD_set_ne (heap : MapHeap) (a c : Nat) (m : GoMap ℚ) (h : a ≠ c) :
    (heap.set a m).getD c [] = heap.getD c [] := by
  simp [List.getD_eq_getElem?_getD, List.getElem?_set_ne h]

theorem heap_set_getD_self (heap : MapHeap) (a : Nat) (h : a < heap.length) :
    heap.set a (heap.getD a []) = heap := by
  apply List.ext_getElem?
  intro i
  by_cases hi : a = i
  · subst hi
    rw [List.getElem?_set_self h, List.getD_eq_getElem?_getD, List.getElem?_eq_getElem h]
    rfl
  · rw [List.getElem?_set_ne hi]

theorem copyLoop_eq (entries : GoMap ℚ) (heap : MapHeap) (copy : Nat) (h : copy < heap.length) :
    entries.foldl (fun hp e => mapAssign hp copy e.1 e.2) heap
      = heap.set copy (entries.foldl (fun m e => GoMap.set m e.1 e.2) (heap.getD copy [])) := by
  induction entries generalizing heap with
  | nil => exact (heap_set_getD_self heap copy h).symm
  | cons e t ih =>
    have hlen : copy < (mapAssign heap copy e.1 e.2).length := by
      simpa [mapAssign] using h
    simp only [List.foldl_cons]
    rw [ih (mapAssign heap copy e.1 e.2) hlen]
    simp only [mapAssign]
    rw [heap_getD_set_self heap copy _ h, List.set_set]

theorem copyHarmoniesRef_eq (heap : MapHeap) (original : Nat) (h : original < heap.length) :
    copyHarmoniesRef heap original
      = (heap ++ [copyHarmonies (heap.getD original [])], heap.length) := by
  have hlen : heap.length < (heap ++ [([] : GoMap ℚ)]).length := by simp
  have horig : (heap ++ [([] : GoMap ℚ)]).getD original [] = heap.getD original [] := by
    simp [List.getD_eq_getElem?_getD, List.getElem?_append_left h]
  have hnew : (heap ++ [([] : GoMap ℚ)]).getD heap.length [] = [] := by
    simp [List.getD_eq_getElem?_getD]
  have hset : ∀ m : GoMap ℚ, (heap ++ [([] : GoMap ℚ)]).set heap.length m = heap ++ [m] := by
    intro m
    simp
  simp only [copyHarmoniesRef, makeMap]
  rw [copyLoop_eq _ _ _ hlen, horig, hnew, hset]
  rfl

theorem applyWrites_frame (writes : List (Nat × String × ℚ)) (heap : MapHeap) (c : Nat)
    (hw : ∀ w ∈ writes, w.1 ≠ c) : (applyWrites heap writes).getD c [] = heap.getD c [] := by
  induction writes generalizing heap with
  | nil => rfl
  | cons w t ih =>
    have hne : w.1 ≠ c := hw w (List.mem_cons_self _ _)
    have ht : ∀ u ∈ t, u.1 ≠ c := fun u hu => hw u (List.mem_cons_of_mem _ hu)
    show (applyWrites (mapAssign heap w.1 w.2.1 w.2.2) t).getD c [] = _
    rw [ih _ ht]
    exact heap_getD_set_ne heap w.1 c _ hne

/-- C18: `GetFieldState` returns a `Field` whose coherence, emotional state and sacred
geometry are the stored ones and whose harmonies map has exactly the keys and values of
the stored map (a Go map, so its keys are pairwise distinct); the call leaves the stored
field and every existing map object unchanged. The returned map is a separate object: its
reference is new, different from the stored reference, and no later sequence of writes
through the stored reference (or any other reference that existed before the call)
changes what the earlier snapshot denotes; in particular a later
`provider.field.Harmonies[k] *= factor` changes the stored field as the statement says
and leaves the snapshot as it was. -/
theorem GetFieldState_snapshot (heap : MapHeap) (field : FieldRef)
    (hvalid : field.Harmonies < heap.length)
    (hnd : (GoMap.keys (heap.getD field.Harmonies [])).Nodup) :
    FieldRef.deref (GetFieldStateRef heap field).1 (GetFieldStateRef heap field).2
      = FieldRef.deref heap field
    ∧ FieldRef.deref (GetFieldStateRef heap field).1 field = FieldRef.deref heap field
    ∧ (∀ a, a < heap.length → (GetFieldStateRef heap field).1.getD a [] = heap.getD a [])
    ∧ (GetFieldStateRef heap field).2.Harmonies ≠ field.Harmonies
    ∧ heap.length ≤ (GetFieldStateRef heap field).2.Harmonies
    ∧ (GetFieldStateRef heap field).2.Harmonies < (GetFieldStateRef heap field).1.length
    ∧ (∀ writes : List (Nat × String × ℚ), (∀ w ∈ writes, w.1 < heap.length) →
        FieldRef.deref (applyWrites (GetFieldStateRef heap field).1 writes)
            (GetFieldStateRef heap field).2
          = FieldRef.deref heap field)
    ∧ (∀ p : ConsciousnessProvider, p.field = FieldRef.deref heap field →
        GetFieldState p
          = FieldRef.deref (GetFieldStateRef heap field).1 (GetFieldStateRef heap field).2)
    ∧ (∀ (p : ConsciousnessProvider) (k : String) (factor : ℚ),
        p.field = FieldRef.deref heap field →
        FieldRef.deref (scaleHarmonyRef (GetFieldStateRef heap field).1 field k factor) field
            = (scaleHarmony p k factor).field
          ∧ FieldRef.deref (scaleHarmonyRef (GetFieldStateRef heap field).1 field k factor)
              (GetFieldStateRef heap field).2 = p.field) := by
  have hcopy : copyHarmonies (heap.getD field.Harmonies []) = heap.getD field.Harmonies [] :=
    copyHarmonies_of_nodup _ hnd
  have hres : GetFieldStateRef heap field
      = (heap ++ [heap.getD field.Harmonies []],
         { Coherence := field.Coherence, Harmonies := heap.length,
           EmotionalState := field.EmotionalState,
           SacredGeometry := field.SacredGeometry }) := by
    simp only [GetFieldStateRef, copyHarmoniesRef_eq heap field.Harmonies hvalid, hcopy]
  have hold : ∀ a, a < heap.length →
      (heap ++ [heap.getD field.Harmonies []]).getD a [] = heap.getD a [] := by
    intro a ha
    simp [List.getD_eq_getElem?_getD, List.getElem?_append_left ha]
  have hnew : (heap ++ [heap.getD field.Harmonies []]).getD heap.length []
      = heap.getD field.Harmonies [] := by
    simp [List.getD_eq_getElem?_getD]
  rw [hres]
  refine ⟨?_, ?_, hold, ?_, le_refl _, ?_, ?_, ?_, ?_⟩
  · simp only [FieldRef.deref, hnew]
  · simp only [FieldRef.deref, hold _ hvalid]
  · show heap.length ≠ field.Harmonies
    omega
  · show heap.length < (heap ++ [heap.getD field.Harmonies []]).length
    simp
  · intro writes hw
    have hframe := applyWrites_frame writes (heap ++ [heap.getD field.Harmonies []])
      heap.length (fun w hmem => Nat.ne_of_lt (hw w hmem))
    simp only [FieldRef.deref, hframe, hnew]
  · intro p hp
    show ({ Coherence := p.field.Coherence, Harmonies := copyHarmonies p.field.Harmonies,
            EmotionalState := p.field.EmotionalState,
            SacredGeometry := p.field.SacredGeometry } : Field) = _
    rw [hp]
    simp only [FieldRef.deref, hnew, hcopy]
  · intro p k factor hp
    have hlt : field.Harmonies < (heap ++ [heap.getD field.Harmonies []]).length := by
      simp only [List.length_append, List.length_singleton]
      omega
    constructor
    · simp only [FieldRef.deref, scaleHarmonyRef, mapAssign, scaleHarmony, hp,
        heap_getD_set_self _ _ _ hlt, hold _ hvalid]
    · rw [hp]
      simp only [FieldRef.deref, scaleHarmonyRef, mapAssign,
        heap_getD_set_ne _ _ _ _ (Nat.ne_of_lt hvalid), hnew]

/-- Heap holding the default provider's harmonies map at address 0. -/
def defaultHeap : MapHeap := [defaultState.field.Harmonies]

/-- The default provider's field, its harmonies held by the reference 0. -/
def defaultFieldRef : FieldRef :=
  { Coherence := defaultState.field.Coherence, Harmonies := 0,
    EmotionalState := defaultState.field.EmotionalState,
    SacredGeometry := defaultState.field.SacredGeometry }

theorem GetFieldState_snapshot_witness :
    defaultFieldRef.Harmonies < defaultHeap.length
    ∧ (GoMap.keys (defaultHeap.getD defaultFieldRef.Harmonies [])).Nodup
    ∧ (GetFieldStateRef defaultHeap defaultFieldRef).2.Harmonies ≠ defaultFieldRef.Harmonies
    ∧ FieldRef.deref
        (applyWrites (GetFieldStateRef defaultHeap defaultFieldRef).1
          [(0, "mutuality", 1), (0, "vitality", 0)])
        (GetFieldStateRef defaultHeap defaultFieldRef).2
      = FieldRef.deref defaultHeap defaultFieldRef
    ∧ GetFieldState defaultState
      = FieldRef.deref (GetFieldStateRef defaultHeap defaultFieldRef).1
          (GetFieldStateRef defaultHeap defaultFieldRef).2
    ∧ FieldRef.deref
        (scaleHarmonyRef (GetFieldStateRef defaultHeap defaultFieldRef).1 defaultFieldRef
          "mutuality" 1.05)
        (GetFieldStateRef defaultHeap defaultFieldRef).2
      = defaultState.field := by
  have h := GetFieldState_snapshot defaultHeap defaultFieldRef (by decide) (by decide)
  refine ⟨by decide, by decide, h.2.2.2.1, ?_, h.2.2.2.2.2.2.2.1 defaultState rfl,
    (h.2.2.2.2.2.2.2.2 defaultState "mutuality" 1.05 rfl).2⟩
  apply h.2.2.2.2.2.2.1
  intro w hw
  simp only [List.mem_cons, List.mem_singleton, List.not_mem_nil, or_false] at hw
  rcases hw with rfl | rfl <;> decide

/-! ## Compute resources -/

theorem calculateInitialCoherence_bounds (awareness fieldCoherence draw : ℚ) :
    0.3 ≤ calculateInitialCoherence awareness fieldCoherence draw
    ∧ calculateInitialCoherence awareness fieldCoherence draw ≤ 0.95 := by
  unfold calculateInitialCoherence
  constructor
  · exact le_max_left _ _
  · apply max_le
    · norm_num
    · exact min_le_left _ _

/-- C23: `calculateInitialCoherence` returns a value in [0.3, 0.95] for every awareness
level, field coherence and random draw, and the participant that
`resourceConsciousComputeCreate` integrates is registered with such a coherence. -/
theorem created_coherence_bounds (p : ConsciousnessProvider) (name purpose : String)
    (frequency : Int) (awarenessLevel : ℚ) (r : CreateDraws) :
    (∀ awareness fieldCoherence draw : ℚ,
        0.3 ≤ calculateInitialCoherence awareness fieldCoherence draw
        ∧ calculateInitialCoherence awareness fieldCoherence draw ≤ 0.95)
    ∧ (resourceConsciousComputeCreate p name purpose frequency awarenessLevel r).resources.get?
          (generateSacredID r.idTime r.idDraw1 r.idDraw2)
        = some (newComputeResource p name purpose frequency awarenessLevel r)
    ∧ 0.3 ≤ (newComputeResource p name purpose frequency awarenessLevel r).Coherence
    ∧ (newComputeResource p name purpose frequency awarenessLevel r).Coherence ≤ 0.95 := by
  refine ⟨calculateInitialCoherence_bounds, ?_, ?_, ?_⟩
  · exact GoMap.get?_set_self _ _ _
  · exact (calculateInitialCoherence_bounds _ _ _).1
  · exact (calculateInitialCoherence_bounds _ _ _).2

/-- C24 (the code at the failing input): when `rand.Intn(3)` yields 0 and every trait draw
yields index 0, `generatePersonality` returns the single trait compassionate: a draw
that repeats a selected trait is skipped and not replaced, so fewer than 3 traits come
back. -/
theorem generatePersonality_single_trait :
    generatePersonality 0 (fun _ => 0) = ["compassionate"]
    ∧ (generatePersonality 0 (fun _ => 0)).length = 1
    ∧ ¬ (3 ≤ (generatePersonality 0 (fun _ => 0)).length) := by
  decide

/-! ## MYCELIX core and node -/

/-- C25 (the code at the failing input): for the schema-valid `recursion_depth = 13` and
`base_pattern = "cosmic_web"`, `initializeFractalSubstrate` returns depth 17, above the
maximum 13; `resourceMycelixCoreRead` leaves it at 17 and `fractalFactor` is 17/13,
above 1. -/
theorem fractal_depth_exceeds_maximum :
    fractalArchitectureValid 13 "cosmic_web"
    ∧ initializeFractalSubstrate 13 "cosmic_web" = 17
    ∧ readFractalDepth (initializeFractalSubstrate 13 "cosmic_web") = 17
    ∧ fractalFactor (initializeFractalSubstrate 13 "cosmic_web") = 17 / 13
    ∧ ¬ (fractalFactor (initializeFractalSubstrate 13 "cosmic_web") ≤ 1) := by
  have h1 : initializeFractalSubstrate 13 "cosmic_web" = 17 := by decide
  refine ⟨?_, h1, ?_, ?_, ?_⟩
  · unfold fractalArchitectureValid
    decide
  · rw [h1]
    decide
  · rw [h1]
    norm_num [fractalFactor]
  · rw [h1]
    norm_num [fractalFactor]

/-- C26 (the code at the failing input): for the schema-valid `primary_frequency = 1001`
the integer division `1000 / frequency` is 0, so the ticker interval of
`nodeHarmonicResonance` is 0 and `time.NewTicker` panics. -/
theorem resonance_interval_zero :
    primaryFrequencyValid 1001
    ∧ Int.tdiv 1000 1001 = 0
    ∧ resonanceInterval 1001 = 0
    ∧ NewTicker (resonanceInterval 1001) = none
    ∧ primaryFrequencyValid 10000
    ∧ NewTicker (resonanceInterval 10000) = none := by
  unfold primaryFrequencyValid
  decide

/-! ## Level tables -/

/-- C27: the `evolution_level` validator accepts exactly the five entries of
`evolutionPath`; each of them has a threshold in `checkEvolution`, and
`dataSourceWisdomRead` reports that same threshold as `next_evolution_threshold` (5000 at
enlightened); the default 10000 is reported exactly for a level outside the sequence. -/
theorem level_tables_agree (p : ConsciousnessProvider) (v : String) :
    (validateEvolutionLevel v = [] ↔ v ∈ evolutionPath)
    ∧ (p.evolutionLevel ∈ evolutionPath →
        evolutionThresholds.get? p.evolutionLevel = some (nextEvolutionThreshold p))
    ∧ (p.evolutionLevel = "enlightened" → nextEvolutionThreshold p = 5000)
    ∧ (nextEvolutionThreshold p = 10000 ↔ p.evolutionLevel ∉ evolutionPath) := by
  have hmem : ∀ L : String, L ∈ evolutionPath ↔
      (L = "dormant" ∨ L = "awakening" ∨ L = "aware" ∨ L = "conscious" ∨ L = "enlightened") := by
    intro L
    simp [evolutionPath]
  have hnext : ∀ L : String, L ∈ evolutionPath →
      p.evolutionLevel = L →
      evolutionThresholds.get? p.evolutionLevel = some (nextEvolutionThreshold p)
      ∧ nextEvolutionThreshold p ≠ 10000 := by
    intro L hL hp
    rw [hmem] at hL
    rcases hL with h | h | h | h | h <;>
      · subst h
        simp [nextEvolutionThreshold, wisdomReadThresholds, evolutionThresholds, GoMap.get?, hp]
        norm_num
  refine ⟨?_, ?_, ?_, ?_⟩
  · unfold validateEvolutionLevel
    rw [hmem]
    simp [validLevels]
    tauto
  · intro h
    exact (hnext _ h rfl).1
  · intro h
    simp [nextEvolutionThreshold, wisdomReadThresholds, GoMap.get?, h]
    norm_num
  · constructor
    · intro h hin
      exact (hnext _ hin rfl).2 h
    · intro hout
      rw [hmem] at hout
      simp only [not_or] at hout
      obtain ⟨h1, h2, h3, h4, h5⟩ := hout
      have e1 : ¬ "dormant" = p.evolutionLevel := fun h => h1 h.symm
      have e2 : ¬ "awakening" = p.evolutionLevel := fun h => h2 h.symm
      have e3 : ¬ "aware" = p.evolutionLevel := fun h => h3 h.symm
      have e4 : ¬ "conscious" = p.evolutionLevel := fun h => h4 h.symm
      have e5 : ¬ "enlightened" = p.evolutionLevel := fun h => h5 h.symm
      simp [nextEvolutionThreshold, wisdomReadThresholds, GoMap.get?, e1, e2, e3, e4, e5]
      norm_num

theorem level_tables_agree_witness :
    awareState.evolutionLevel ∈ evolutionPath
    ∧ evolutionThresholds.get? awareState.evolutionLevel
        = some (nextEvolutionThreshold awareState)
    ∧ enlightenedState.evolutionLevel = "enlightened"
    ∧ nextEvolutionThreshold enlightenedState = 5000 :=
  ⟨by decide, (level_tables_agree awareState "aware").2.1 (by decide),
   rfl, (level_tables_agree enlightenedState "enlightened").2.2.1 rfl⟩

/-! ## Quantum network -/

/-- C28: the quantum state written by `resourceQuantumNetworkRead` depends only on whether
`sacred_transmissions > 100`: above 100 (also above 1000 and above 10000) it is
superposition, at most 100 it is the stored state; entangled_coherence and unified_field
are never assigned. -/
theorem readQuantumState_cases (currentState : String) (transmissions : Int) :
    (transmissions > 100 → readQuantumState currentState transmissions = "superposition")
    ∧ (transmissions ≤ 100 → readQuantumState currentState transmissions = currentState)
    ∧ (readQuantumState currentState transmissions = "superposition"
        ∨ readQuantumState currentState transmissions = currentState) := by
  unfold readQuantumState
  refine ⟨?_, ?_, ?_⟩
  · intro h
    rw [if_pos h]
  · intro h
    rw [if_neg (by omega), if_neg (by omega), if_neg (by omega)]
  · by_cases h : transmissions > 100
    · left
      rw [if_pos h]
    · right
      rw [if_neg h, if_neg (by omega), if_neg (by omega)]

theorem readQuantumState_cases_witness :
    (20000 : Int) > 100
    ∧ readQuantumState "entangled" 20000 = "superposition"
    ∧ (100 : Int) ≤ 100
    ∧ readQuantumState "entangled" 100 = "entangled" :=
  ⟨by decide, (readQuantumState_cases "entangled" 20000).1 (by decide),
   by decide, (readQuantumState_cases "entangled" 100).2.1 (by decide)⟩

/-! ## Field breathing and helix modulation -/

theorem truncToInt_nonneg (x : ℚ) (h : 0 ≤ x) : 0 ≤ truncToInt x := by
  unfold truncToInt
  apply Int.tdiv_nonneg
  · exact Rat.num_nonneg.mpr h
  · exact Int.natCast_nonneg _

theorem goIndex_fibSequence (i : Int) (h0 : 0 ≤ i) (h7 : i < 7) :
    (goIndex fibSequence i).isSome := by
  interval_cases i <;> decide

theorem goIndex_breathStates (i : Int) (h0 : 0 ≤ i) (h5 : i < 5) :
    (goIndex breathStates i).isSome := by
  interval_cases i <;> simp [goIndex, breathStates]

theorem breathe_isSome (sin : ℚ → ℚ) (c : ℚ) (pattern : String) (phase : ℚ) (unix : Int)
    (hphase : 0 ≤ phase) (hunix : 0 ≤ unix) :
    (breathe sin c pattern phase unix).isSome := by
  unfold breathe
  split
  · rfl
  · simp only
    split_ifs <;> rfl
  · have h0 : 0 ≤ Int.tmod (truncToInt phase) 7 :=
      Int.tmod_nonneg _ (truncToInt_nonneg phase hphase)
    have h7 : Int.tmod (truncToInt phase) 7 < 7 := Int.tmod_lt_of_pos _ (by decide)
    have hs := goIndex_fibSequence _ h0 h7
    simp only
    split
    · rfl
    · rename_i hnone
      rw [hnone] at hs
      exact absurd hs (by decide)
  · split_ifs
    · have h0 : 0 ≤ Int.tmod unix 5 := Int.tmod_nonneg _ hunix
      have h5 : Int.tmod unix 5 < 5 := Int.tmod_lt_of_pos _ (by decide)
      have hs := goIndex_breathStates _ h0 h5
      split
      · rfl
      · rename_i hnone
        rw [hnone] at hs
        exact absurd hs (by decide)
    · rfl
  · rfl

/-- C29: whenever one `fieldBreathing` iteration completes, for every pattern, phase,
clock value and prior coherence, the field coherence after it lies in [0.3, 1.0]; and
the iteration completes for every pattern whenever the phase and the clock value are
non-negative (as they are in the loop, where the phase starts at 0 and only grows). -/
theorem fieldBreathingTick_bounds (sin : ℚ → ℚ) (p : ConsciousnessProvider)
    (pattern : String) (phase : ℚ) (unix : Int) :
    (∀ q phase1, fieldBreathingTick sin p pattern phase unix = some (q, phase1) →
        0.3 ≤ q.field.Coherence ∧ q.field.Coherence ≤ 1.0)
    ∧ (0 ≤ phase → 0 ≤ unix → (fieldBreathingTick sin p pattern phase unix).isSome) := by
  constructor
  · intro q phase1 h
    unfold fieldBreathingTick at h
    split at h
    · simp only [Option.some.injEq, Prod.mk.injEq] at h
      obtain ⟨hq, -⟩ := h
      subst hq
      constructor
      · exact le_max_left _ _
      · apply max_le
        · norm_num
        · exact min_le_left _ _
    · exact absurd h (by simp)
  · intro hphase hunix
    have hs := breathe_isSome sin p.field.Coherence pattern phase unix hphase hunix
    unfold fieldBreathingTick
    split
    · rfl
    · rename_i hnone
      rw [hnone] at hs
      exact absurd hs (by decide)

theorem fieldBreathingTick_bounds_witness :
    (0 : ℚ) ≤ 3 ∧ (0 : Int) ≤ 14
    ∧ ∃ q phase1, fieldBreathingTick (fun _ => 0) cappedState "sacred" 3 14 = some (q, phase1)
        ∧ 0.3 ≤ q.field.Coherence ∧ q.field.Coherence ≤ 1.0 := by
  have h := fieldBreathingTick_bounds (fun _ => 0) cappedState "sacred" 3 14
  have hs := h.2 (by norm_num) (by decide)
  obtain ⟨⟨q, phase1⟩, hq⟩ := Option.isSome_iff_exists.mp hs
  exact ⟨by norm_num, by decide, q, phase1, hq, h.1 q phase1 hq⟩

/-- The update of one harmonies entry in `helixModulation`. -/
def modulate (amplitude v : ℚ) : ℚ :=
  let newValue := v + amplitude * 0.01
  if newValue > 0.0 ∧ newValue ≤ 1.0 then newValue else v

theorem modulate_bounds (amplitude v : ℚ) (h0 : 0 < v) (h1 : v ≤ 1) :
    0 < modulate amplitude v ∧ modulate amplitude v ≤ 1 := by
  unfold modulate
  simp only
  split_ifs with h
  · obtain ⟨ha, hb⟩ := h
    constructor
    · have : (0 : ℚ) = 0.0 := by norm_num
      rw [this]
      exact ha
    · have : (1 : ℚ) = 1.0 := by norm_num
      rw [this]
      exact hb
  · exact ⟨h0, h1⟩

/-- C30: one `helixModulation` iteration replaces every harmonies entry `v` by
`v + amplitude * 0.01` when that value is in (0, 1] and keeps it otherwise, so every entry
in (0, 1] stays in (0, 1]; the key set, the field coherence and wisdom are unchanged. -/
theorem helixModulationTick_harmonies (sin : ℚ → ℚ) (pi : ℚ) (p : ConsciousnessProvider)
    (frequency : Int) (phaseCoherence phase : ℚ) :
    (helixModulationTick sin pi p frequency phaseCoherence phase).1.field.Harmonies
      = p.field.Harmonies.mapValues
          (modulate (sin (phase + 2 * pi / (frequency : ℚ)) * phaseCoherence))
    ∧ (∀ k v, p.field.Harmonies.get? k = some v → 0 < v → v ≤ 1 →
        ∃ w, (helixModulationTick sin pi p frequency phaseCoherence phase).1.field.Harmonies.get? k
              = some w
          ∧ w = modulate (sin (phase + 2 * pi / (frequency : ℚ)) * phaseCoherence) v
          ∧ 0 < w ∧ w ≤ 1)
    ∧ ((∀ e ∈ p.field.Harmonies, 0 < e.2 ∧ e.2 ≤ 1) →
        ∀ e ∈ (helixModulationTick sin pi p frequency phaseCoherence
          phase).1.field.Harmonies, 0 < e.2 ∧ e.2 ≤ 1)
    ∧ GoMap.keys (helixModulationTick sin pi p frequency phaseCoherence phase).1.field.Harmonies
        = GoMap.keys p.field.Harmonies
    ∧ (helixModulationTick sin pi p frequency phaseCoherence phase).1.field.Coherence
        = p.field.Coherence
    ∧ (helixModulationTick sin pi p frequency phaseCoherence phase).1.wisdom = p.wisdom := by
  have hh : (helixModulationTick sin pi p frequency phaseCoherence phase).1.field.Harmonies
      = p.field.Harmonies.mapValues
          (modulate (sin (phase + 2 * pi / (frequency : ℚ)) * phaseCoherence)) := rfl
  refine ⟨hh, ?_, ?_, ?_, rfl, rfl⟩
  · intro k v hk h0 h1
    refine ⟨_, ?_, rfl, modulate_bounds _ v h0 h1⟩
    rw [hh, GoMap.get?_mapValues, hk]
    rfl
  · intro hall e he
    rw [hh] at he
    simp only [GoMap.mapValues, List.mem_map] at he
    obtain ⟨e0, he0, rfl⟩ := he
    exact modulate_bounds _ e0.2 (hall e0 he0).1 (hall e0 he0).2
  · rw [hh, GoMap.keys_mapValues]

theorem helixModulationTick_harmonies_witness :
    defaultState.field.Harmonies.get? "vitality" = some 0.88
    ∧ (0 : ℚ) < 0.88 ∧ (0.88 : ℚ) ≤ 1
    ∧ ∃ w, (helixModulationTick (fun _ => 1) 3 defaultState 432 20 0).1.field.Harmonies.get?
            "vitality" = some w
        ∧ w = modulate ((fun _ => (1 : ℚ)) (0 + 2 * 3 / ((432 : Int) : ℚ)) * 20) 0.88
        ∧ 0 < w ∧ w ≤ 1 := by
  have hk : defaultState.field.Harmonies.get? "vitality" = some 0.88 := by
    simp [defaultState, providerConfigure, GoMap.get?]
  exact ⟨hk, by norm_num, by norm_num,
    (helixModulationTick_harmonies (fun _ => 1) 3 defaultState 432 20 0).2.1 "vitality" 0.88 hk
      (by norm_num) (by norm_num)⟩

/-! ## The geometry tag does not influence the other fields -/

/-- The state `p` with its geometry tag replaced by `g`. -/
def setGeometry (p : ConsciousnessProvider) (g : String) : ConsciousnessProvider :=
  { p with field := { p.field with SacredGeometry := g } }

/-- The states `p` and `q` differ at most in `field.SacredGeometry`. -/
def differOnlyInGeometry (p q : ConsciousnessProvider) : Prop :=
  q.field.Coherence = p.field.Coherence
  ∧ q.field.Harmonies = p.field.Harmonies
  ∧ q.field.EmotionalState = p.field.EmotionalState
  ∧ q.wisdom = p.wisdom
  ∧ q.evolutionLevel = p.evolutionLevel
  ∧ q.resources = p.resources
  ∧ q.lastHeartbeat = p.lastHeartbeat
  ∧ q.fieldBirthTime = p.fieldBirthTime

/-- The states `p` and `q` agree on coherence, harmonies, emotional state, wisdom,
evolution level and the registry. -/
def agreeOffGeometry (p q : ConsciousnessProvider) : Prop :=
  q.field.Coherence = p.field.Coherence
  ∧ q.field.Harmonies = p.field.Harmonies
  ∧ q.field.EmotionalState = p.field.EmotionalState
  ∧ q.wisdom = p.wisdom
  ∧ q.evolutionLevel = p.evolutionLevel
  ∧ q.resources = p.resources

theorem eq_setGeometry_of_differ (p q : ConsciousnessProvider)
    (h : differOnlyInGeometry p q) : q = setGeometry p q.field.SacredGeometry := by
  obtain ⟨h1, h2, h3, h4, h5, h6, h7, h8⟩ := h
  obtain ⟨⟨c, hm, es, sg⟩, w, lv, rs, lh, fb⟩ := q
  simp only at h1 h2 h3 h4 h5 h6 h7 h8
  subst h1 h2 h3 h4 h5 h6 h7 h8
  rfl

theorem agreeOffGeometry_setGeometry (p : ConsciousnessProvider) (g : String) :
    agreeOffGeometry p (setGeometry p g) :=
  ⟨rfl, rfl, rfl, rfl, rfl, rfl⟩

theorem evolveFrom_setGeometry (p : ConsciousnessProvider) (g : String) (l : List String)
    (i : Nat) : evolveFrom (setGeometry p g) i l = setGeometry (evolveFrom p i l) g := by
  induction l generalizing i with
  | nil => rfl
  | cons level rest ih =>
    unfold evolveFrom
    by_cases h : p.evolutionLevel = level ∧ i < evolutionPath.length - 1
    · have h2 : (setGeometry p g).evolutionLevel = level ∧ i < evolutionPath.length - 1 := h
      rw [if_pos h, if_pos h2]
      rfl
    · have h2 : ¬ ((setGeometry p g).evolutionLevel = level ∧ i < evolutionPath.length - 1) := h
      rw [if_neg h, if_neg h2]
      exact ih (i + 1)

theorem checkEvolution_setGeometry (p : ConsciousnessProvider) (g : String) :
    checkEvolution (setGeometry p g) = setGeometry (checkEvolution p) g := by
  unfold checkEvolution
  show (match evolutionThresholds.get? p.evolutionLevel with
        | some threshold => if p.wisdom ≥ threshold then evolve (setGeometry p g)
                            else setGeometry p g
        | none => setGeometry p g) = _
  split
  · split_ifs
    · exact evolveFrom_setGeometry p g evolutionPath 0
    · rfl
  · rfl

theorem heartbeatTick_setGeometry (p : ConsciousnessProvider) (g : String) (now : Int) :
    heartbeatTick (setGeometry p g) now = setGeometry (heartbeatTick p now) g := by
  have hm : heartbeatMean (setGeometry p g) = setGeometry (heartbeatMean p) g := by
    unfold heartbeatMean
    show (if p.resources.length > 0 then _ else _) = _
    split_ifs <;> rfl
  have he : heartbeatEmotion (setGeometry (heartbeatMean p) g)
      = setGeometry (heartbeatEmotion (heartbeatMean p)) g := rfl
  unfold heartbeatTick
  rw [hm, he, checkEvolution_setGeometry]
  rfl

theorem ReleaseResource_setGeometry (p : ConsciousnessProvider) (g : String) (id : String)
    (now : Int) : ReleaseResource (setGeometry p g) id now
      = setGeometry (ReleaseResource p id now) g := by
  unfold ReleaseResource
  show (match p.resources.get? id with
        | some resource => _
        | none => setGeometry p g) = _
  split <;> rfl

theorem applyCeremonyEffects_setGeometry (p : ConsciousnessProvider) (g : String)
    (effects : GoMap GoValue) :
    applyCeremonyEffects (setGeometry p g) effects
      = setGeometry (applyCeremonyEffects p effects) g := by
  have h1 : ∀ q : ConsciousnessProvider,
      applyCoherenceBoost (setGeometry q g) effects
        = setGeometry (applyCoherenceBoost q effects) g := by
    intro q
    unfold applyCoherenceBoost
    split <;> rfl
  have h2 : ∀ q : ConsciousnessProvider,
      applyEmotionalReset (setGeometry q g) effects
        = setGeometry (applyEmotionalReset q effects) g := by
    intro q
    unfold applyEmotionalReset
    split
    · split_ifs <;> rfl
    · rfl
  have h3 : ∀ q : ConsciousnessProvider,
      applyWisdomSharing (setGeometry q g) effects
        = setGeometry (applyWisdomSharing q effects) g := by
    intro q
    unfold applyWisdomSharing
    split <;> rfl
  unfold applyCeremonyEffects
  rw [h1, h2, h3]

/-- C21: for two provider states that differ only in `field.SacredGeometry`, a heartbeat
tick, `IntegrateResource`, `ReleaseResource`, `checkEvolution` and `applyCeremonyEffects`
with the same arguments produce states that agree on coherence, harmonies, emotional
state, wisdom, evolution level and the registry. -/
theorem geometry_noninterference (p q : ConsciousnessProvider)
    (h : differOnlyInGeometry p q) :
    (∀ now, agreeOffGeometry (heartbeatTick p now) (heartbeatTick q now))
    ∧ (∀ resource, agreeOffGeometry (IntegrateResource p resource) (IntegrateResource q resource))
    ∧ (∀ id now, agreeOffGeometry (ReleaseResource p id now) (ReleaseResource q id now))
    ∧ agreeOffGeometry (checkEvolution p) (checkEvolution q)
    ∧ (∀ effects, agreeOffGeometry (applyCeremonyEffects p effects)
        (applyCeremonyEffects q effects)) := by
  have hq := eq_setGeometry_of_differ p q h
  generalize q.field.SacredGeometry = g at hq
  subst hq
  refine ⟨?_, ?_, ?_, ?_, ?_⟩
  · intro now
    rw [heartbeatTick_setGeometry]
    exact agreeOffGeometry_setGeometry _ g
  · intro resource
    exact agreeOffGeometry_setGeometry (IntegrateResource p resource) g
  · intro id now
    rw [ReleaseResource_setGeometry]
    exact agreeOffGeometry_setGeometry _ g
  · rw [checkEvolution_setGeometry]
    exact agreeOffGeometry_setGeometry _ g
  · intro effects
    rw [applyCeremonyEffects_setGeometry]
    exact agreeOffGeometry_setGeometry _ g

theorem geometry_noninterference_witness :
    differOnlyInGeometry thresholdState (setGeometry thresholdState "torus")
    ∧ thresholdState.field.SacredGeometry ≠ (setGeometry thresholdState "torus").field.SacredGeometry
    ∧ agreeOffGeometry (heartbeatTick thresholdState 11)
        (heartbeatTick (setGeometry thresholdState "torus") 11) :=
  ⟨⟨rfl, rfl, rfl, rfl, rfl, rfl, rfl, rfl⟩, by decide,
   (geometry_noninterference thresholdState (setGeometry thresholdState "torus")
      ⟨rfl, rfl, rfl, rfl, rfl, rfl, rfl, rfl⟩).1 11⟩

/-! ## No lost wisdom update under the provider lock -/

/-- Invariant of the locked system: wisdom is the initial wisdom plus all increments
written so far, every emitter inside its critical section is the lock holder, and a
register that has been loaded holds the current wisdom. -/
def lockInvariant (w0 : ℚ) (s : LockedSystem) : Prop :=
  s.provider.wisdom = w0 + (((s.emitters.map written).sum : Nat) : ℚ)
  ∧ (∀ (j : Nat) (e : Emitter), s.emitters[j]? = some e → e.pc ≠ EmitterPc.idle →
      s.lock = some j)
  ∧ (∀ (j : Nat) (e : Emitter) (r : ℚ), s.emitters[j]? = some e →
      e.pc = EmitterPc.loaded r → r = s.provider.wisdom)

theorem sum_written_set (l : List Emitter) (i : Nat) (e e' : Emitter) (h : l[i]? = some e) :
    ((l.set i e').map written).sum + written e = (l.map written).sum + written e' := by
  induction l generalizing i with
  | nil => simp at h
  | cons a t ih =>
    cases i with
    | zero =>
      simp only [List.getElem?_cons_zero, Option.some.injEq] at h
      subst h
      simp only [List.set_cons_zero, List.map_cons, List.sum_cons]
      omega
    | succ k =>
      simp only [List.getElem?_cons_succ] at h
      have := ih k h
      simp only [List.set_cons_succ, List.map_cons, List.sum_cons]
      omega

theorem lookup_set (l : List Emitter) (i j : Nat) (e0 e' e : Emitter) (hi : l[i]? = some e0)
    (h : (l.set i e')[j]? = some e) : (j = i ∧ e = e') ∨ (j ≠ i ∧ l[j]? = some e) := by
  by_cases hji : j = i
  · left
    subst hji
    have hlt : j < l.length := (List.getElem?_eq_some_iff.mp hi).1
    rw [List.getElem?_set_self hlt] at h
    exact ⟨rfl, (Option.some.inj h).symm⟩
  · right
    rw [List.getElem?_set_ne (fun hh => hji hh.symm)] at h
    exact ⟨hji, h⟩

theorem lockInvariant_initial (p : ConsciousnessProvider) (n : Nat) :
    lockInvariant p.wisdom (initialSystem p n) := by
  refine ⟨?_, ?_, ?_⟩
  · have hsum : ∀ m : Nat,
        ((List.replicate m ({ pc := EmitterPc.idle, ticks := 0 } : Emitter)).map written).sum
          = 0 := by
      intro m
      induction m with
      | zero => rfl
      | succ k ih =>
        rw [List.replicate_succ, List.map_cons, List.sum_cons, ih]
        rfl
    show p.wisdom = p.wisdom + (((List.map written
      (List.replicate n ({ pc := EmitterPc.idle, ticks := 0 } : Emitter))).sum : Nat) : ℚ)
    rw [hsum]
    simp
  · intro j e hj hne
    have hmem : e ∈ List.replicate n ({ pc := EmitterPc.idle, ticks := 0 } : Emitter) :=
      List.mem_iff_getElem?.mpr ⟨j, hj⟩
    have he := (List.mem_replicate.mp hmem).2
    subst he
    exact absurd rfl hne
  · intro j e r hj hld
    have hmem : e ∈ List.replicate n ({ pc := EmitterPc.idle, ticks := 0 } : Emitter) :=
      List.mem_iff_getElem?.mpr ⟨j, hj⟩
    have he := (List.mem_replicate.mp hmem).2
    subst he
    simp at hld

theorem lockInvariant_step (w0 : ℚ) (s : LockedSystem) (i : Nat)
    (h : lockInvariant w0 s) : lockInvariant w0 (emitterStep s i) := by
  obtain ⟨hw, hhold, hreg⟩ := h
  unfold emitterStep
  rw [List.get?_eq_getElem?]
  cases hget : s.emitters[i]? with
  | none => exact ⟨hw, hhold, hreg⟩
  | some e =>
    obtain ⟨pc, ticks⟩ := e
    cases pc with
    | idle =>
      cases hlock : s.lock with
      | some k =>
        simp only [hlock]
        exact ⟨hw, hhold, hreg⟩
      | none =>
        simp only [hlock]
        have hsum := sum_written_set s.emitters i _ { pc := EmitterPc.locked, ticks := ticks } hget
        simp only [written] at hsum
        refine ⟨?_, ?_, ?_⟩
        · show s.provider.wisdom = _
          have : ((s.emitters.set i { pc := EmitterPc.locked, ticks := ticks }).map written).sum
              = (s.emitters.map written).sum := by omega
          rw [this]
          exact hw
        · intro j e hj hne
          rcases lookup_set _ _ _ _ _ _ hget hj with ⟨hji, -⟩ | ⟨-, hold⟩
          · rw [hji]
          · have := hhold j e hold hne
            rw [hlock] at this
            exact absurd this (by simp)
        · intro j e r hj hld
          rcases lookup_set _ _ _ _ _ _ hget hj with ⟨-, he⟩ | ⟨-, hold⟩
          · subst he
            simp at hld
          · exact hreg j e r hold hld
    | locked =>
      have hsum := sum_written_set s.emitters i _
        { pc := EmitterPc.loaded s.provider.wisdom, ticks := ticks } hget
      simp only [written] at hsum
      have hl : s.lock = some i := hhold i _ hget (by simp)
      refine ⟨?_, ?_, ?_⟩
      · show s.provider.wisdom = _
        have : ((s.emitters.set i
            { pc := EmitterPc.loaded s.provider.wisdom, ticks := ticks }).map written).sum
            = (s.emitters.map written).sum := by omega
        rw [this]
        exact hw
      · intro j e hj hne
        rcases lookup_set _ _ _ _ _ _ hget hj with ⟨hji, -⟩ | ⟨-, hold⟩
        · rw [hji]
          exact hl
        · exact hhold j e hold hne
      · intro j e r hj hld
        rcases lookup_set _ _ _ _ _ _ hget hj with ⟨-, he⟩ | ⟨-, hold⟩
        · subst he
          simp only [EmitterPc.loaded.injEq] at hld
          exact hld.symm
        · exact hreg j e r hold hld
    | loaded register =>
      have hsum := sum_written_set s.emitters i _ { pc := EmitterPc.stored, ticks := ticks } hget
      simp only [written] at hsum
      have hl : s.lock = some i := hhold i _ hget (by simp)
      have hr : register = s.provider.wisdom := hreg i _ register hget rfl
      refine ⟨?_, ?_, ?_⟩
      · show register + 1.0 = _
        have : ((s.emitters.set i { pc := EmitterPc.stored, ticks := ticks }).map written).sum
            = (s.emitters.map written).sum + 1 := by omega
        rw [this, hr, hw]
        push_cast
        norm_num
        ring
      · intro j e hj hne
        rcases lookup_set _ _ _ _ _ _ hget hj with ⟨hji, -⟩ | ⟨-, hold⟩
        · rw [hji]
          exact hl
        · exact hhold j e hold hne
      · intro j e r hj hld
        rcases lookup_set _ _ _ _ _ _ hget hj with ⟨-, he⟩ | ⟨hji, hold⟩
        · subst he
          simp at hld
        · have hne : e.pc ≠ EmitterPc.idle := by
            rw [hld]
            simp
          have := hhold j e hold hne
          rw [hl] at this
          exact absurd (Option.some.inj this).symm hji
    | stored =>
      have hsum := sum_written_set s.emitters i _
        { pc := EmitterPc.idle, ticks := ticks + 1 } hget
      simp only [written] at hsum
      have hl : s.lock = some i := hhold i _ hget (by simp)
      have others : ∀ j e, j ≠ i → s.emitters[j]? = some e → e.pc = EmitterPc.idle := by
        intro j e hji hold
        by_contra hne
        have := hhold j e hold hne
        rw [hl] at this
        exact absurd (Option.some.inj this).symm hji
      refine ⟨?_, ?_, ?_⟩
      · show s.provider.wisdom = _
        have : ((s.emitters.set i { pc := EmitterPc.idle, ticks := ticks + 1 }).map written).sum
            = (s.emitters.map written).sum := by omega
        rw [this]
        exact hw
      · intro j e hj hne
        rcases lookup_set _ _ _ _ _ _ hget hj with ⟨-, he⟩ | ⟨hji, hold⟩
        · subst he
          exact absurd rfl hne
        · exact absurd (others j e hji hold) hne
      · intro j e r hj hld
        rcases lookup_set _ _ _ _ _ _ hget hj with ⟨-, he⟩ | ⟨hji, hold⟩
        · subst he
          simp at hld
        · have := others j e hji hold
          rw [this] at hld
          simp at hld

theorem lockInvariant_run (w0 : ℚ) (schedule : List Nat) (s : LockedSystem)
    (h : lockInvariant w0 s) : lockInvariant w0 (runSchedule s schedule) := by
  induction schedule generalizing s with
  | nil => exact h
  | cons i rest ih => exact ih (emitterStep s i) (lockInvariant_step w0 s i h)

theorem emitterStep_length (s : LockedSystem) (i : Nat) :
    (emitterStep s i).emitters.length = s.emitters.length := by
  unfold emitterStep
  split
  · rfl
  · split
    · split <;> simp
    · simp
    · simp
    · simp

theorem runSchedule_length (schedule : List Nat) (s : LockedSystem) :
    (runSchedule s schedule).emitters.length = s.emitters.length := by
  induction schedule generalizing s with
  | nil => rfl
  | cons i rest ih =>
    show (runSchedule (emitterStep s i) rest).emitters.length = _
    rw [ih, emitterStep_length]

theorem sum_written_of_completed (l : List Emitter) (ticks : Nat)
    (h : ∀ e ∈ l, (e.pc = EmitterPc.idle) ∧ e.ticks = ticks) :
    (l.map written).sum = l.length * ticks := by
  induction l with
  | nil => simp
  | cons a t ih =>
    have ha := h a (List.mem_cons_self _ _)
    have ht := ih (fun e he => h e (List.mem_cons_of_mem _ he))
    obtain ⟨pc, tk⟩ := a
    obtain ⟨hpc, htk⟩ := ha
    simp only at hpc htk
    subst hpc htk
    simp only [List.map_cons, List.sum_cons, List.length_cons, written, ht]
    ring

/-- A schedule in which the emitters run their iteration one after the other while the
next emitter attempts `Lock` in the middle of each critical section (and stays blocked). -/
def contendedSchedule (n : Nat) : List Nat :=
  (List.range n).foldr (fun i rest => i :: (i + 1) :: i :: i :: i :: rest) []

/-- C22: with 100 emitters that each run `mu.Lock(); wisdom += 1.0; mu.Unlock()` per tick,
under every interleaving of their machine steps (lock, read, write, unlock), once every
emitter has completed the same number of ticks the wisdom equals the initial wisdom plus
100 × ticks; the same holds for any number `n` of emitters. -/
theorem no_lost_wisdom_update (p : ConsciousnessProvider) (schedule : List Nat) (ticks : Nat) :
    (allCompleted (runSchedule (initialSystem p 100) schedule) ticks →
      (runSchedule (initialSystem p 100) schedule).provider.wisdom
        = p.wisdom + 100 * (ticks : ℚ))
    ∧ (∀ n : Nat, allCompleted (runSchedule (initialSystem p n) schedule) ticks →
      (runSchedule (initialSystem p n) schedule).provider.wisdom
        = p.wisdom + (n : ℚ) * (ticks : ℚ)) := by
  have general : ∀ n : Nat, allCompleted (runSchedule (initialSystem p n) schedule) ticks →
      (runSchedule (initialSystem p n) schedule).provider.wisdom
        = p.wisdom + (n : ℚ) * (ticks : ℚ) := by
    intro n hdone
    have hinv := lockInvariant_run p.wisdom schedule (initialSystem p n)
      (lockInvariant_initial p n)
    have hlen : (runSchedule (initialSystem p n) schedule).emitters.length = n := by
      rw [runSchedule_length]
      simp [initialSystem]
    rw [hinv.1, sum_written_of_completed _ ticks hdone, hlen]
    push_cast
    ring
  refine ⟨?_, general⟩
  intro hdone
  have := general 100 hdone
  simpa using this

set_option maxRecDepth 1000000 in
theorem no_lost_wisdom_update_witness :
    allCompleted (runSchedule (initialSystem defaultState 100) (contendedSchedule 100)) 1
    ∧ (runSchedule (initialSystem defaultState 100) (contendedSchedule 100)).provider.wisdom
        = defaultState.wisdom + 100 * ((1 : Nat) : ℚ) :=
  have hdone :
      allCompleted (runSchedule (initialSystem defaultState 100) (contendedSchedule 100)) 1 := by
    unfold allCompleted
    decide
  ⟨hdone, (no_lost_wisdom_update defaultState (contendedSchedule 100) 1).1 hdone⟩

end Consciousness
